import Mathlib

/-!
Verification development for the recursive forecast synthesis engine of
`src/model/inference.py`.

Shallow embedding conventions:
* Timestamps are modelled as `Int`, hours since 1970-01-01T00:00 (pandas
  `Timestamp` comparisons become `Int` comparisons; `timedelta(hours=n)` is
  `+ n`, `timedelta(days=n)` is `+ 24*n`, `DateOffset(months=n)` is
  `addMonths · n` computed on the civil calendar, matching pandas
  month-offset semantics including day-of-month clamping).
* Calendar accessors `.month`, `.dayofweek`, `.hour` are the civil-calendar
  functions `tmonth`, `tdow`, `thour` (Monday = 0, as in pandas).
* A cell value is `Val := Option ℚ`: `none` models NaN (pandas series means
  skip NaN; an all-NaN mean is NaN, i.e. `none`).
* A dataframe is a column-name list plus a row list; a row is a date plus an
  association list of cells.  `df.sort_values(date_col)` is a stable
  insertion sort by date (the concrete inputs used here have pairwise
  distinct dates, so sort kind is immaterial).
* The fitted model is a parameter `List (String × Val) → Except String ℚ`:
  `Except.error` models `model.predict` raising.
* Fallible paths return `Except String`; `raise` is `Except.error`.
-/

/-- Cell value: `none` models NaN / missing numeric data. -/
abbrev Val : Type := Option ℚ

/-- A dataframe row: its `date` (the value of the date column) and its cells. -/
structure Row where
  date : Int
  cells : List (String × Val)
deriving DecidableEq

/-- A dataframe: the column names and the rows. -/
structure DF where
  cols : List String
  rows : List Row
deriving DecidableEq

/-- Like pandas column access on a single row: `none` when the column is
absent from the cells. -/
def getCells (c : String) : List (String × Val) → Option Val
  | [] => none
  | (c', v) :: rest => if c' = c then some v else getCells c rest

/-- Set a cell, replacing an existing column or appending a new one
(`next_row[col] = value`). -/
def setCells (c : String) (v : Val) : List (String × Val) → List (String × Val)
  | [] => [(c, v)]
  | (c', v') :: rest => if c' = c then (c, v) :: rest else (c', v') :: setCells c v rest

/-- The raw cell of a column on a row, `none` when the column is absent. -/
def Row.find (r : Row) (c : String) : Option Val := getCells c r.cells

/-- The value of a column on a row; an absent column reads as NaN.  Code paths
that distinguish presence use `Row.hasCol` (pandas `col in row.columns`). -/
def Row.get (r : Row) (c : String) : Val := (r.find c).getD none

/-- `col in next_row.columns`. -/
def Row.hasCol (r : Row) (c : String) : Bool := (r.find c).isSome

/-- `next_row[col] = v`. -/
def Row.set (r : Row) (c : String) (v : Val) : Row :=
  { r with cells := setCells c v r.cells }

/-- Stable insertion by date: a row is placed after all rows with a strictly
smaller date and after earlier rows with an equal date. -/
def insertByDate (x : Row) : List Row → List Row
  | [] => [x]
  | y :: ys => if y.date < x.date then y :: insertByDate x ys else x :: y :: ys

/-- `df.sort_values(date_col)` (stable; concrete inputs have distinct dates). -/
def sortByDate (rows : List Row) : List Row := rows.foldr insertByDate []

/- Civil (proleptic Gregorian) calendar, used exactly where pandas derives
calendar components from a timestamp.  `civilFromDays`/`daysFromCivil` follow
the standard era-based algorithms; day 0 is 1970-01-01 (a Thursday). -/

/-- Day count since 1970-01-01 to (year, month, day). -/
def civilFromDays (z0 : Int) : Int × Int × Int :=
  let z := z0 + 719468
  let era : Int := (if 0 ≤ z then z else z - 146096) / 146097
  let doe : Int := z - era * 146097
  let yoe : Int := (doe - doe / 1460 + doe / 36524 - doe / 146096) / 365
  let y : Int := yoe + era * 400
  let doy : Int := doe - (365 * yoe + yoe / 4 - yoe / 100)
  let mp : Int := (5 * doy + 2) / 153
  let d : Int := doy - (153 * mp + 2) / 5 + 1
  let m : Int := if mp < 10 then mp + 3 else mp - 9
  ((if m ≤ 2 then y + 1 else y), m, d)

/-- (year, month, day) to day count since 1970-01-01. -/
def daysFromCivil (y0 m d : Int) : Int :=
  let y : Int := if m ≤ 2 then y0 - 1 else y0
  let era : Int := (if 0 ≤ y then y else y - 399) / 400
  let yoe : Int := y - era * 400
  let doy : Int := (153 * (m + (if 2 < m then -3 else 9)) + 2) / 5 + d - 1
  let doe : Int := yoe * 365 + yoe / 4 - yoe / 100 + doy
  era * 146097 + doe - 719468

/-- `ts.month` for a timestamp in hours since the epoch. -/
def tmonth (t : Int) : Int := (civilFromDays (t.fdiv 24)).2.1

/-- `ts.dayofweek` (Monday = 0); 1970-01-01 was a Thursday (3). -/
def tdow (t : Int) : Int := ((t.fdiv 24) + 3).emod 7

/-- `ts.hour`. -/
def thour (t : Int) : Int := t.emod 24

/-- Leap year in the Gregorian calendar. -/
def isLeap (y : Int) : Bool := y.emod 4 == 0 && (y.emod 100 != 0 || y.emod 400 == 0)

/-- Number of days of a calendar month. -/
def daysInMonth (y m : Int) : Int :=
  if m = 2 then (if isLeap y then 29 else 28)
  else if m = 4 ∨ m = 6 ∨ m = 9 ∨ m = 11 then 30 else 31

/-- `ts + DateOffset(months=n)` on a timestamp in hours: shift the calendar
month, clamping the day of month, keeping the time of day (pandas
`DateOffset` semantics). -/
def addMonths (t : Int) (n : Int) : Int :=
  let z := t.fdiv 24
  let hrs := t - z * 24
  let ymd := civilFromDays z
  let mi : Int := 12 * ymd.1 + (ymd.2.1 - 1) + n
  let y2 : Int := mi.fdiv 12
  let m2 : Int := mi.emod 12 + 1
  let d2 : Int := min ymd.2.2 (daysInMonth y2 m2)
  daysFromCivil y2 m2 d2 * 24 + hrs

/-- `datetime(ts.year, ts.month, 1)`: the start of a timestamp's month. -/
def monthStart (t : Int) : Int :=
  let ymd := civilFromDays (t.fdiv 24)
  daysFromCivil ymd.1 ymd.2.1 1 * 24

/- Python string helpers (`split`, `replace`, `int`), implemented over
`List Char` with explicit fuel so that they are structurally recursive and
kernel-computable. -/

/-- If `xs` starts with the pattern, return the remainder. -/
def dropPat : List Char → List Char → Option (List Char)
  | [], xs => some xs
  | _, [] => none
  | p :: ps, x :: xs => if x = p then dropPat ps xs else none

/-- Fuelled worker for `pySplit`; fuel bounds the number of consumed
characters (`fuel = length` on entry, the exhaustion arm is unreachable for
a nonempty separator). -/
def splitAux (sep : List Char) : Nat → List Char → List Char → List (List Char)
  | _, [], acc => [acc.reverse]
  | 0, xs, acc => [acc.reverse ++ xs]
  | fuel + 1, x :: xs, acc =>
    match dropPat sep (x :: xs) with
    | some rest => acc.reverse :: splitAux sep fuel rest []
    | none => splitAux sep fuel xs (x :: acc)

/-- Python `s.split(sep)` for a nonempty separator. -/
def pySplit (s sep : String) : List String :=
  if sep.data.isEmpty then [s]
  else (splitAux sep.data s.data.length s.data []).map (fun cs => String.mk cs)

/-- Fuelled worker for `pyReplace` (left-to-right, non-overlapping, matching
Python `str.replace`). -/
def replaceAux (pat rep : List Char) : Nat → List Char → List Char
  | _, [] => []
  | 0, xs => xs
  | fuel + 1, x :: xs =>
    match dropPat pat (x :: xs) with
    | some rest => rep ++ replaceAux pat rep fuel rest
    | none => x :: replaceAux pat rep fuel xs

/-- Python `s.replace(pat, rep)` for a nonempty pattern. -/
def pyReplace (s pat rep : String) : String :=
  if pat.data.isEmpty then s
  else String.mk (replaceAux pat.data rep.data s.data.length s.data)

/-- Decimal digit value. -/
def digitVal? (c : Char) : Option Nat :=
  if '0' ≤ c ∧ c ≤ '9' then some (c.toNat - ('0').toNat) else none

/-- A nonempty all-digit character list to a natural number. -/
def natOfDigits : List Char → Option Nat
  | [] => none
  | cs => cs.foldl (fun acc c =>
      match acc, digitVal? c with
      | some n, some d => some (n * 10 + d)
      | _, _ => none) (some 0)

/-- Python `int(s)` on canonical integer numerals (with optional sign);
anything else is a `ValueError`, modelled as `none` — the source catches it. -/
def pyToInt? (s : String) : Option Int :=
  match s.data with
  | '-' :: rest => (natOfDigits rest).map (fun n => -(n : Int))
  | '+' :: rest => (natOfDigits rest).map (fun n => (n : Int))
  | cs => (natOfDigits cs).map (fun n => (n : Int))

/-- `"_lag_" in col`. -/
def hasLagIn (c : String) : Bool := 2 ≤ (pySplit c ("_lag_")).length

/- Kernel-computable rational arithmetic.  Core `Rat` addition and division
normalize through `Nat.gcd`, which is defined by well-founded recursion and
does not reduce in the kernel; the engine's means are therefore computed with
a fuelled gcd and the canonical constructor `mkQ`, with bridge lemmas back to
ordinary `ℚ` arithmetic. -/

def gcdAux : Nat → Nat → Nat → Nat
  | 0, _, y => y
  | _ + 1, 0, y => y
  | fuel + 1, Nat.succ x, y => gcdAux fuel (y % Nat.succ x) (Nat.succ x)

def myGcd (x y : Nat) : Nat := gcdAux (x + 1) x y

theorem gcdAux_eq (fuel x y : Nat) (h : x < fuel + 1) : gcdAux (fuel + 1) x y = Nat.gcd x y := by
  induction fuel generalizing x y with
  | zero =>
    interval_cases x
    · simp [gcdAux, Nat.gcd]
  | succ n ih =>
    cases x with
    | zero => simp [gcdAux, Nat.gcd]
    | succ m =>
      have hm := Nat.mod_lt y (Nat.succ_pos m)
      rw [gcdAux, ih (y % Nat.succ m) (Nat.succ m) (by omega)]
      rw [Nat.gcd_succ]

theorem myGcd_eq (x y : Nat) : myGcd x y = Nat.gcd x y := gcdAux_eq x x y (Nat.lt_succ_self x)

theorem myGcd_div_right_nz (a b : Nat) (hb : b ≠ 0) : b / myGcd a b ≠ 0 := by
  rw [myGcd_eq]
  have hg : 0 < Nat.gcd a b := Nat.gcd_pos_of_pos_right a (Nat.pos_of_ne_zero hb)
  have hd : Nat.gcd a b ∣ b := Nat.gcd_dvd_right a b
  have := Nat.div_pos (Nat.le_of_dvd (Nat.pos_of_ne_zero hb) hd) hg
  omega

theorem myGcd_coprime (x : Int) (b : Nat) (hb : b ≠ 0) :
    (x.sign * ((x.natAbs / myGcd x.natAbs b : Nat) : Int)).natAbs.Coprime (b / myGcd x.natAbs b) := by
  rw [myGcd_eq]
  rcases eq_or_ne x 0 with hx | hx
  · subst hx
    simp [Nat.Coprime, Nat.div_self (Nat.pos_of_ne_zero hb)]
  · have hg : 0 < Nat.gcd x.natAbs b :=
      Nat.gcd_pos_of_pos_left b (Int.natAbs_pos.mpr hx)
    have hnum : (x.sign * ((x.natAbs / Nat.gcd x.natAbs b : Nat) : Int)).natAbs
        = x.natAbs / Nat.gcd x.natAbs b := by
      rw [Int.natAbs_mul, Int.natAbs_sign_of_nonzero hx, Int.natAbs_ofNat, one_mul]
    rw [hnum]
    exact Nat.coprime_div_gcd_div_gcd hg

/-- Kernel-computable canonical rational `n / d` (0 when `d = 0`, matching
rational division by zero). -/
def mkQ (n d : Int) : ℚ :=
  if hd : d = 0 then 0
  else
    let n' : Int := if 0 < d then n else -n
    Rat.mk' (n'.sign * ((n'.natAbs / myGcd n'.natAbs d.natAbs : Nat) : Int))
      (d.natAbs / myGcd n'.natAbs d.natAbs)
      (myGcd_div_right_nz n'.natAbs d.natAbs (Int.natAbs_ne_zero.mpr hd))
      (myGcd_coprime n' d.natAbs (Int.natAbs_ne_zero.mpr hd))

theorem mkQ_eq (n d : Int) : mkQ n d = (n : ℚ) / (d : ℚ) := by
  rcases eq_or_ne d 0 with hd | hd
  · subst hd; simp [mkQ]
  · rw [mkQ, dif_neg hd]
    set n' : Int := if 0 < d then n else -n with hn'
    set g : Nat := myGcd n'.natAbs d.natAbs with hgdef
    have hgg : g = Nat.gcd n'.natAbs d.natAbs := myGcd_eq _ _
    have hg : 0 < g := by
      rw [hgg]
      exact Nat.gcd_pos_of_pos_right _ (Int.natAbs_pos.mpr hd)
    have hda : g ∣ d.natAbs := by rw [hgg]; exact Nat.gcd_dvd_right n'.natAbs d.natAbs
    have hna : g ∣ n'.natAbs := by rw [hgg]; exact Nat.gcd_dvd_left n'.natAbs d.natAbs
    have hden_nz : (d.natAbs / g : Nat) ≠ 0 := by
      have := Nat.div_pos (Nat.le_of_dvd (Int.natAbs_pos.mpr hd) hda) hg
      omega
    rw [Rat.mk'_eq_divInt, Rat.divInt_eq_div]
    rw [div_eq_div_iff (by exact_mod_cast hden_nz) (by exact_mod_cast hd)]
    have hn'a : ((n'.natAbs / g : Nat) : Int) * g = n'.natAbs := by
      exact_mod_cast Nat.div_mul_cancel hna
    have hd'a : ((d.natAbs / g : Nat) : Int) * g = d.natAbs := by
      exact_mod_cast Nat.div_mul_cancel hda
    have hsign : n'.sign * (n'.natAbs : Int) = n' := Int.sign_mul_natAbs n'
    have hgz : (g : Int) ≠ 0 := by
      have : g ≠ 0 := by omega
      exact_mod_cast this
    have key : (n'.sign * ((n'.natAbs / g : Nat) : Int)) * d = n * ((d.natAbs / g : Nat) : Int) := by
      apply mul_right_cancel₀ hgz
      calc (n'.sign * ((n'.natAbs / g : Nat) : Int)) * d * g
          = n'.sign * (((n'.natAbs / g : Nat) : Int) * g) * d := by ring
        _ = n'.sign * (n'.natAbs : Int) * d := by rw [hn'a]
        _ = n' * d := by rw [hsign]
        _ = n * (d.natAbs : Int) := by
            rcases lt_or_gt_of_ne hd with hneg | hpos
            · have h1 : n' = -n := by rw [hn', if_neg (not_lt.mpr (le_of_lt hneg))]
              have h2 : (d.natAbs : Int) = -d := Int.ofNat_natAbs_of_nonpos (le_of_lt hneg)
              rw [h1, h2]; ring
            · have h1 : n' = n := by rw [hn', if_pos hpos]
              have h2 : (d.natAbs : Int) = d := Int.natAbs_of_nonneg (le_of_lt hpos)
              rw [h1, h2]
        _ = n * (((d.natAbs / g : Nat) : Int) * g) := by rw [hd'a]
        _ = n * ((d.natAbs / g : Nat) : Int) * g := by ring
    exact_mod_cast key

def qadd (a b : ℚ) : ℚ :=
  mkQ (a.num * (b.den : Int) + b.num * (a.den : Int)) ((a.den : Int) * (b.den : Int))

theorem qadd_eq (a b : ℚ) : qadd a b = a + b := by
  have hda : ((a.den : Nat) : ℚ) ≠ 0 := Nat.cast_ne_zero.mpr a.den_nz
  have hdb : ((b.den : Nat) : ℚ) ≠ 0 := Nat.cast_ne_zero.mpr b.den_nz
  have hA : (a.num : ℚ) = a * ((a.den : Nat) : ℚ) := (div_eq_iff hda).mp (Rat.num_div_den a)
  have hB : (b.num : ℚ) = b * ((b.den : Nat) : ℚ) := (div_eq_iff hdb).mp (Rat.num_div_den b)
  rw [qadd, mkQ_eq]
  rw [div_eq_iff (by push_cast; exact mul_ne_zero hda hdb)]
  push_cast
  rw [hA, hB]
  ring

def qsum : List ℚ → ℚ
  | [] => 0
  | x :: xs => qadd x (qsum xs)

theorem qsum_eq : ∀ l : List ℚ, qsum l = l.sum
  | [] => rfl
  | x :: xs => by rw [qsum, qadd_eq, qsum_eq xs, List.sum_cons]

def qdivNat (a : ℚ) (n : Nat) : ℚ := mkQ a.num ((a.den : Int) * (n : Int))

theorem qdivNat_eq (a : ℚ) (n : Nat) : qdivNat a n = a / (n : ℚ) := by
  rw [qdivNat, mkQ_eq]
  rcases Nat.eq_zero_or_pos n with hn | hn
  · subst hn; push_cast; simp
  · have hd : (a.den : ℚ) ≠ 0 := Nat.cast_ne_zero.mpr a.den_nz
    push_cast
    rw [div_mul_eq_div_div, Rat.num_div_den]

/- Series means.  pandas `.mean()` skips NaN and returns NaN on an all-NaN or
empty series. -/

/-- Mean of a rational list (`none` on empty, matching an all-NaN mean). -/
def meanQ (xs : List ℚ) : Val :=
  if xs.isEmpty then none else some (qdivNat (qsum xs) xs.length)

/-- `meanQ` is the ordinary mean. -/
theorem meanQ_eq (xs : List ℚ) :
    meanQ xs = if xs.isEmpty then none else some (xs.sum / (xs.length : ℚ)) := by
  rw [meanQ, qdivNat_eq, qsum_eq]

/-- The values of one column down a row list (a pandas column slice). -/
def colVals (rows : List Row) (c : String) : List Val :=
  rows.map (fun r => r.get c)

/-- The last `n` elements of a list (`xs.iloc[-n:]`). -/
def lastN {α : Type} (xs : List α) (n : Nat) : List α := xs.drop (xs.length - n)

/-- `df[col].iloc[-n:].mean()`: NaN-skipping mean of the last `n` cells. -/
def meanLastN (rows : List Row) (c : String) (n : Nat) : Val :=
  meanQ ((lastN (colVals rows c) n).filterMap id)

/-- `df[col].mean()`: NaN-skipping mean of the whole column. -/
def meanAll (rows : List Row) (c : String) : Val :=
  meanQ ((colVals rows c).filterMap id)

/-- `df[df[col] > 0][col]`: the strictly positive values of a column (NaN
compares false, so NaNs drop out). -/
def nonZeroVals (rows : List Row) (c : String) : List ℚ :=
  ((colVals rows c).filterMap id).filter (fun q => 0 < q)

/- The engine (`_predict_next` and the horizon loops of `run_inference`). -/

/-- Forecast frequency: the source branches on `freq.upper().startswith("M")`,
then `startswith("H")`, treating everything else (daily and weekly) alike. -/
inductive Freq
  | H
  | D
  | W
  | M
deriving DecidableEq

/-- `freq.upper().startswith("M")`. -/
def Freq.isM : Freq → Bool
  | .M => true
  | _ => false

/-- `freq.upper().startswith("H")`. -/
def Freq.isH : Freq → Bool
  | .H => true
  | _ => false

/-- `freq.upper().startswith("D")`. -/
def Freq.isD : Freq → Bool
  | .D => true
  | _ => false

/-- `model/inference.py:37`. -/
def TARGET_COL : String := "Estimated_Hourly_Cost_USD"

/-- `model/inference.py:358`. -/
def criticalFeatures : List String := ["CAISO Total", "Monthly_Price_Cents_per_kWh"]

/-- Lines 138-153: drop rows more than 730 days before the last (sorted) row
for the hourly and daily frequencies; keep everything for weekly and
monthly. -/
def cutoffRows (freq : Freq) (rows : List Row) : List Row :=
  match rows.getLast? with
  | none => rows
  | some lastRow =>
    if freq.isH || freq.isD then rows.filter (fun r => lastRow.date - 730 * 24 ≤ r.date)
    else rows

/-- Lines 183-187: the frame the calendar-analog search runs over — when
`max_hist_date` is given, only rows dated at or before it. -/
def histRows (dfR : List Row) (maxHist : Option Int) : List Row :=
  match maxHist with
  | some mh => dfR.filter (fun r => r.date ≤ mh)
  | none => dfR

/-- Lines 199-219: calendar-similar rows of the target date.  Monthly matches
the month; hourly matches month, day-of-week and hour; daily/weekly match
month and day-of-week. -/
def similarOf (freq : Freq) (histR : List Row) (nextDate : Int) : List Row :=
  if freq.isM then histR.filter (fun r => tmonth r.date == tmonth nextDate)
  else if freq.isH then
    histR.filter (fun r =>
      tmonth r.date == tmonth nextDate && tdow r.date == tdow nextDate &&
        thour r.date == thour nextDate)
  else
    histR.filter (fun r => tmonth r.date == tmonth nextDate && tdow r.date == tdow nextDate)

/-- Lines 249-272: overwrite the temporal columns.  `hour` gets the target's
actual hour only for the hourly frequency; the monthly branch and the
daily/weekly branch of the source are textually identical (mean of the
similar rows' hour, else the frame mean, else 12).  `dayofweek` and `month`
always get the target's calendar values when the columns exist. -/
def hourUpdate (cols : List String) (dfR similarRows : List Row) (freq : Freq)
    (nextDate : Int) (row0 : Row) : Row :=
  if row0.hasCol ("hour") then
    if freq.isH then row0.set ("hour") (some ((thour nextDate : Int) : ℚ))
    else
      if !similarRows.isEmpty && cols.contains ("hour") then
        row0.set ("hour") (meanAll similarRows ("hour"))
      else
        row0.set ("hour") (if cols.contains ("hour") then meanAll dfR ("hour") else some 12)
  else row0

/-- Lines 268-269. -/
def dowUpdate (nextDate : Int) (row : Row) : Row :=
  if row.hasCol ("dayofweek") then row.set ("dayofweek") (some ((tdow nextDate : Int) : ℚ))
  else row

/-- Lines 271-272. -/
def monthUpdate (nextDate : Int) (row : Row) : Row :=
  if row.hasCol ("month") then row.set ("month") (some ((tmonth nextDate : Int) : ℚ))
  else row

/-- Lines 249-272 composed in source order. -/
def tempUpdate (cols : List String) (dfR similarRows : List Row) (freq : Freq)
    (nextDate : Int) (row0 : Row) : Row :=
  monthUpdate nextDate (dowUpdate nextDate (hourUpdate cols dfR similarRows freq nextDate row0))

/-- Lines 277-334 (the `try` body): resolve one lag feature to a value, or
`none` when unresolvable or NaN (parse failure is a caught `ValueError`).
Monthly looks back one month and only directly for a 1-period lag; a longer
monthly lag re-reads the base column of the 1-period lag, guarded on the
`_lag_1` column existing, and without the lag-column fallback read the
1-period path has. -/
def lagResolve (freq : Freq) (cols : List String) (dfR : List Row) (nextDate : Int)
    (lagCol : String) : Val :=
  match (pySplit lagCol ("_lag_"))[1]? with
  | none => none
  | some numStr =>
    match pyToInt? numStr with
    | none => none
    | some lagNum =>
      if freq.isM then
        if lagNum = 1 then
          match (dfR.filter (fun r => r.date ≤ addMonths nextDate (-1))).getLast? with
          | none => none
          | some lr =>
            if cols.contains (pyReplace lagCol ("_lag_" ++ toString lagNum) ("")) then
              lr.get (pyReplace lagCol ("_lag_" ++ toString lagNum) (""))
            else if cols.contains lagCol then lr.get lagCol
            else none
        else
          if cols.contains (pyReplace lagCol ("_lag_" ++ toString lagNum) ("") ++ "_lag_1") then
            match (dfR.filter (fun r => r.date ≤ addMonths nextDate (-1))).getLast? with
            | none => none
            | some lr =>
              if cols.contains (pyReplace
                  (pyReplace lagCol ("_lag_" ++ toString lagNum) ("") ++ "_lag_1")
                  ("_lag_1") ("")) then
                lr.get (pyReplace
                  (pyReplace lagCol ("_lag_" ++ toString lagNum) ("") ++ "_lag_1")
                  ("_lag_1") (""))
              else none
          else none
      else
        match (dfR.filter (fun r =>
            r.date ≤ (if freq.isH then nextDate - lagNum else nextDate - 24 * lagNum))).getLast? with
        | none => none
        | some lr =>
          if cols.contains (pyReplace lagCol ("_lag_" ++ toString lagNum) ("")) then
            lr.get (pyReplace lagCol ("_lag_" ++ toString lagNum) (""))
          else if cols.contains lagCol then lr.get lagCol
          else none

/-- Lines 336-354: write the resolved lag value, else fall back to the
trailing mean over a window of 30 (for every frequency) of the lag column,
else of the base column; if neither column exists the row is left alone. -/
def applyLag (freq : Freq) (cols : List String) (dfR : List Row) (nextDate : Int)
    (row : Row) (lagCol : String) : Row :=
  match lagResolve freq cols dfR nextDate lagCol with
  | some v => row.set lagCol (some v)
  | none =>
    if cols.contains lagCol then
      row.set lagCol (meanLastN dfR lagCol 30)
    else
      if cols.contains ((pySplit lagCol ("_lag_")).headD lagCol) then
        row.set lagCol (meanLastN dfR ((pySplit lagCol ("_lag_")).headD lagCol) 30)
      else row

/-- Line 276: the lag loop runs over the features containing `"_lag_"`. -/
def lagStage (features cols : List String) (dfR : List Row) (freq : Freq) (nextDate : Int)
    (row : Row) : Row :=
  (features.filter hasLagIn).foldl (fun acc c => applyLag freq cols dfR nextDate acc c) row

/-- Lines 356-378: copy actual values from the most recent similar row —
first the critical features (skipping NaN and zero), then every non-lag,
non-critical feature (skipping NaN). -/
def copyStage (features cols : List String) (similarRows : List Row) (row : Row) : Row :=
  match similarRows.getLast? with
  | none => row
  | some sra =>
    let r1 := criticalFeatures.foldl (fun acc col =>
      if features.contains col && cols.contains col then
        match sra.get col with
        | some v => if v ≠ 0 then acc.set col (some v) else acc
        | none => acc
      else acc) row
    features.foldl (fun acc col =>
      if !hasLagIn col && !criticalFeatures.contains col && cols.contains col then
        match sra.get col with
        | some v => acc.set col (some v)
        | none => acc
      else acc) r1

/-- The trailing window of the generic NaN-fill: 12 monthly, 24 hourly,
30 otherwise (lines 389-403 and 445-459). -/
def genericFillWindow (freq : Freq) : Nat :=
  if freq.isM then 12 else if freq.isH then 24 else 30

/-- Lines 381-403 (and the behaviourally identical 437-459): fill every still
NaN feature present on the row from the trailing mean of its column. -/
def fillStage (features cols : List String) (dfR : List Row) (freq : Freq) (row : Row) : Row :=
  features.foldl (fun acc col =>
    if !acc.hasCol col then acc
    else
      match acc.get col with
      | some _ => acc
      | none =>
        if cols.contains col then acc.set col (meanLastN dfR col (genericFillWindow freq))
        else acc) row

/-- Python `int()` truncation toward zero on a rational. -/
def ratTrunc (q : ℚ) : Int := q.num / (q.den : Int)

/-- Lines 405-435: make sure the critical features are set.  For the hourly
frequency the source averages the rows sharing the (truncated) target hour
over a window of 7, else a window of 24; otherwise a window of 12 (monthly)
or 30. -/
def critEnsureStep (features cols : List String) (dfR : List Row) (freq : Freq)
    (acc : Row) (col : String) : Row :=
  if features.contains col then
    if (!acc.hasCol col ||
        (match acc.get col with
         | none => true
         | some v => v == 0)) then
      if cols.contains col then
        if freq.isH && acc.hasCol ("hour") then
          match acc.get ("hour") with
          | none =>
            -- the source would raise here (`int` of NaN); for the hourly
            -- frequency an existing hour cell is always numeric by the time
            -- this pass runs (set from the target hour or copied non-NaN),
            -- so this arm is unreachable
            acc
          | some hq =>
            if !(if cols.contains ("hour") then
                  dfR.filter (fun r => r.get ("hour") == some ((ratTrunc hq : Int) : ℚ))
                else dfR).isEmpty then
              acc.set col (meanLastN (if cols.contains ("hour") then
                  dfR.filter (fun r => r.get ("hour") == some ((ratTrunc hq : Int) : ℚ))
                else dfR) col 7)
            else acc.set col (meanLastN dfR col 24)
        else
          acc.set col (meanLastN dfR col (if freq.isM then 12 else 30))
      else acc
    else acc
  else acc

/-- Lines 405-435 run `critEnsureStep` over the critical features. -/
def critEnsureStage (features cols : List String) (dfR : List Row) (freq : Freq)
    (row : Row) : Row :=
  criticalFeatures.foldl (critEnsureStep features cols dfR freq) row

/-- Lines 461-501: the final critical-feature guard.  A missing/zero value is
re-resolved from the trailing mean of the strictly positive values (window
168 hourly, else 30), falling back to the overall strictly-positive mean,
then the overall mean; zero/NaN candidates are never written.  (The source's
inner `col in critical_features` tests are always true in this loop.) -/
def critGuardStep (cols : List String) (dfR : List Row) (freq : Freq)
    (acc : Row) (col : String) : Row :=
  if acc.hasCol col then
    if (match acc.get col with
        | none => true
        | some v => v == 0) then
      if cols.contains col then
        match (if 0 < (nonZeroVals dfR col).length then
            meanQ (lastN (nonZeroVals dfR col)
              (min (if freq.isH then min 168 dfR.length else min 30 dfR.length)
                (nonZeroVals dfR col).length))
          else
            meanLastN dfR col (if freq.isH then min 168 dfR.length else min 30 dfR.length)) with
        | some rv =>
          if rv ≠ 0 then acc.set col (some rv)
          else
            match (if 0 < (nonZeroVals dfR col).length then meanQ (nonZeroVals dfR col)
                else meanAll dfR col) with
            | some om => if om ≠ 0 then acc.set col (some om) else acc
            | none => acc
        | none =>
          match (if 0 < (nonZeroVals dfR col).length then meanQ (nonZeroVals dfR col)
              else meanAll dfR col) with
          | some om => if om ≠ 0 then acc.set col (some om) else acc
          | none => acc
      else acc
    else acc
  else acc

/-- Lines 461-501 run `critGuardStep` over the critical features. -/
def critGuardStage (cols : List String) (dfR : List Row) (freq : Freq) (row : Row) : Row :=
  criticalFeatures.foldl (critGuardStep cols dfR freq) row

/-- Assign a column of the one-row frame `X` (`X[col] = v`). -/
def setX (X : List (String × Val)) (c : String) (v : Val) : List (String × Val) :=
  X.map (fun p => if p.1 = c then (p.1, v) else p)

/-- Lines 505-521: the extra post-projection check for `CAISO Total`
(`"CAISO Total" in X.columns` holds exactly when it is among `features`,
since `X = next_row[features]`). -/
def caisoPass (features cols : List String) (dfR : List Row)
    (X : List (String × Val)) : List (String × Val) :=
  if features.contains ("CAISO Total") then
    if (match (getCells ("CAISO Total") X).getD none with
        | none => true
        | some v => v == 0) then
      if cols.contains ("CAISO Total") then
        if 0 < (nonZeroVals dfR ("CAISO Total")).length then
          setX X ("CAISO Total")
            (meanQ (lastN (nonZeroVals dfR ("CAISO Total"))
              (min 168 (nonZeroVals dfR ("CAISO Total")).length)))
        else
          match meanAll dfR ("CAISO Total") with
          | some m => if 0 < m then setX X ("CAISO Total") (some m) else X
          | none => X
      else X
    else X
  else X

/-- Lines 196-229 and 234-246: the base row — the most recent similar row,
else the last row — re-dated to the target date. -/
def baseSeed (dfR : List Row) (freq : Freq) (lastRow : Row) (nextDate : Int)
    (maxHist : Option Int) : Row :=
  { date := nextDate,
    cells := (((similarOf freq (histRows dfR maxHist) nextDate).getLast?).getD lastRow).cells }

/-- Lines 196-501: the fully synthesized row for the target date — the base
seed run through the temporal update, the lag loop, the similar-row copy, the
two NaN fills, and the two critical-feature passes, in source order. -/
def synthRow (features cols : List String) (dfR : List Row) (freq : Freq) (lastRow : Row)
    (nextDate : Int) (maxHist : Option Int) : Row :=
  critGuardStage cols dfR freq
    (fillStage features cols dfR freq
      (critEnsureStage features cols dfR freq
        (fillStage features cols dfR freq
          (copyStage features cols (similarOf freq (histRows dfR maxHist) nextDate)
            (lagStage features cols dfR freq nextDate
              (tempUpdate cols dfR (similarOf freq (histRows dfR maxHist) nextDate) freq
                nextDate (baseSeed dfR freq lastRow nextDate maxHist)))))))

/-- Lines 196-533 of `_predict_next` after the frame preparation: synthesize
the feature vector for `nextDate` over the prepared frame `dfR`.
`X = next_row[features]` (line 502) raises a `KeyError` when a feature is
missing from the row; `.ffill().bfill()` is the identity on a one-row frame.
The debug print of lines 523-531 is process-global console I/O and is not
modelled. -/
def synthCore (features cols : List String) (dfR : List Row) (freq : Freq) (lastRow : Row)
    (nextDate : Int) (maxHist : Option Int) : Except String (List (String × Val)) :=
  if features.all (fun c => (synthRow features cols dfR freq lastRow nextDate maxHist).hasCol c) then
    Except.ok (caisoPass features cols dfR
      (features.map (fun c => (c, (synthRow features cols dfR freq lastRow nextDate maxHist).get c))))
  else Except.error ("KeyError: a required feature is missing from the synthesized row")

/-- Lines 124-531 of `_predict_next` up to the model call: sort by date,
raise on an empty frame, apply the 730-day cutoff, resolve the target date
(the given `target_date`, else one period after the last row), and
synthesize the feature vector.  Returns the resolved date with the vector.
`resolveNextDate` is the target-date resolution of lines 158-173 (the given
`target_date`, else one period after the last row of the prepared frame). -/
def resolveNextDate (freq : Freq) (lastRow : Row) (targetDate : Option Int) : Int :=
  match targetDate with
  | some td => td
  | none =>
    if freq.isM then addMonths lastRow.date 1
    else if freq.isH then lastRow.date + 1
    else lastRow.date + 24

def synthesizeX (features : List String) (df0 : DF) (freq : Freq)
    (targetDate maxHist : Option Int) : Except String (Int × List (String × Val)) :=
  if (sortByDate df0.rows).isEmpty then
    Except.error ("No data available to perform inference.")
  else
    match (cutoffRows freq (sortByDate df0.rows)).getLast? with
    | none => Except.error ("No data available to perform inference.")
    | some lastRow =>
      match synthCore features df0.cols (cutoffRows freq (sortByDate df0.rows)) freq lastRow
          (resolveNextDate freq lastRow targetDate) maxHist with
      | Except.error e => Except.error e
      | Except.ok X => Except.ok (resolveNextDate freq lastRow targetDate, X)

/-- One output row of `_predict_next` (lines 539-546). -/
structure PredRecord where
  target : String
  prediction : ℚ
  forLabel : String
  featureDate : Int
deriving DecidableEq

/-- `_predict_next`: synthesize the vector, call the model (which may raise),
clamp a negative prediction to zero (lines 533-537), and emit the record. -/
def predictNext (model : List (String × Val) → Except String ℚ) (features : List String)
    (df0 : DF) (freq : Freq) (nextLabel : String) (targetDate maxHist : Option Int) :
    Except String PredRecord :=
  match synthesizeX features df0 freq targetDate maxHist with
  | Except.error e => Except.error e
  | Except.ok (nextDate, X) =>
    match model X with
    | Except.error e => Except.error e
    | Except.ok p =>
      Except.ok { target := TARGET_COL, prediction := if p < 0 then 0 else p,
                  forLabel := nextLabel, featureDate := nextDate }

/- The horizon loops and the orchestration of `run_inference` (lines 549-823).
The CSV/model-file I/O and `build_hourly_dataset` are external collaborators;
the orchestration is modelled from the prepared frames and model bundles.
`datetime.now()` is the parameter `now`, a whole-hour timestamp. -/

/-- Zero-padded two-digit rendering (`strftime` field). -/
def pad2 (n : Int) : String := if n < 10 then "0" ++ toString n else toString n

/-- `strftime("%Y-%m-%d")` of a day count. -/
def ymdStr (z : Int) : String :=
  let ymd := civilFromDays z
  toString ymd.1 ++ "-" ++ pad2 ymd.2.1 ++ "-" ++ pad2 ymd.2.2

/-- `f"hour_{ts.strftime('%Y-%m-%d %H:00')}"`. -/
def hourLabel (t : Int) : String := "hour_" ++ ymdStr (t.fdiv 24) ++ " " ++ pad2 (thour t) ++ ":00"

/-- `f"day_{ts.strftime('%Y-%m-%d')}"`. -/
def dayLabel (t : Int) : String := "day_" ++ ymdStr (t.fdiv 24)

/-- `f"week_{ts.strftime('%Y-%m-%d')}"`. -/
def weekLabel (t : Int) : String := "week_" ++ ymdStr (t.fdiv 24)

/-- `f"month_{ts.strftime('%Y-%m')}"`. -/
def monthLabel (t : Int) : String :=
  let ymd := civilFromDays (t.fdiv 24)
  "month_" ++ toString ymd.1 ++ "-" ++ pad2 ymd.2.1

/-- The fixed data of one granularity's horizon loop. -/
structure LoopParams where
  model : List (String × Val) → Except String ℚ
  features : List String
  cols : List String
  freq : Freq
  mkLabel : Int → String
  step : Int → Int
  limit : Int
  maxHist : Int
  flushAt : Nat

/-- The mutable state of one granularity's horizon loop: the flushed working
frame, the buffer of synthesized rows not yet concatenated, the records
emitted so far, and the next target date. -/
structure LoopState where
  rows : List Row
  buffer : List Row
  preds : List PredRecord
  curr : Int
deriving DecidableEq

/-- One iteration of a horizon loop (e.g. lines 620-645 for hourly): call
`_predict_next` on the flushed frame with `target_date = curr` and the fixed
`max_hist_date`; on success append the record, build the new working-history
row as a copy of the flushed frame's **last row** with only the date and
target columns overwritten, buffer it, and concatenate the buffer into the
frame once it reaches `flushAt` rows (100 hourly, 30 daily; weekly and
monthly concatenate immediately, i.e. `flushAt = 1`).  An exception from
`_predict_next` (feature synthesis or `model.predict`) propagates. -/
def loopStep (P : LoopParams) (s : LoopState) : Except String LoopState :=
  match predictNext P.model P.features ⟨P.cols, s.rows⟩ P.freq (P.mkLabel s.curr)
      (some s.curr) (some P.maxHist) with
  | Except.error e => Except.error e
  | Except.ok pred =>
    let newRow : Row :=
      match s.rows.getLast? with
      | some lr => { date := s.curr, cells := setCells TARGET_COL (some pred.prediction) lr.cells }
      | none => { date := s.curr, cells := [(TARGET_COL, some pred.prediction)] }
    let buf := s.buffer ++ [newRow]
    if P.flushAt ≤ buf.length then
      Except.ok { rows := s.rows ++ buf, buffer := [], preds := s.preds ++ [pred],
                  curr := P.step s.curr }
    else
      Except.ok { rows := s.rows, buffer := buf, preds := s.preds ++ [pred],
                  curr := P.step s.curr }

/-- A horizon loop: `while curr <= limit and count < max_iterations`, with the
iteration cap threaded as fuel.  Any exception aborts the whole loop. -/
def loopGo (P : LoopParams) : Nat → LoopState → Except String LoopState
  | 0, s => Except.ok s
  | fuel + 1, s =>
    if s.curr ≤ P.limit then
      match loopStep P s with
      | Except.error e => Except.error e
      | Except.ok s' => loopGo P fuel s'
    else Except.ok s

/-- A trained model bundle: `(model, features)` as loaded from disk. -/
structure Bundle where
  model : List (String × Val) → Except String ℚ
  features : List String

/-- Stable insertion for the final `results.sort_values("feature_date")`. -/
def insertPred (x : PredRecord) : List PredRecord → List PredRecord
  | [] => [x]
  | y :: ys => if y.featureDate < x.featureDate then y :: insertPred x ys else x :: y :: ys

/-- Sort prediction records by resolved date (stable). -/
def sortPredsByDate (l : List PredRecord) : List PredRecord := l.foldr insertPred []

/-- `run_inference` (lines 549-823) after the external data/model loading:
read each granularity's last date (`.iloc[-1]` raises `IndexError` on an
empty frame — there is no skip for a granularity with no history), compute
the prediction limits from `now`, run the four horizon loops in order
(hourly, daily, weekly, monthly — weekly anchors `max_hist_date` to the
**daily** frame's last date, monthly starts at the last month itself when it
is the current month), and sort the concatenated records by date.  When no
loop emitted anything, fall back to four single-step calls (no
`target_date`, no `max_hist_date`).  Any exception anywhere propagates:
nothing is returned and no records survive. -/
def runInferenceCore (hb db wb mb : Bundle) (hourlyDF dailyDF weeklyDF monthlyDF : DF)
    (now : Int) : Except String (List PredRecord) :=
  let hourlySorted := sortByDate hourlyDF.rows
  match hourlySorted.getLast? with
  | none => Except.error ("IndexError: single positional indexer is out-of-bounds")
  | some lastH =>
    match dailyDF.rows.getLast? with
    | none => Except.error ("IndexError: single positional indexer is out-of-bounds")
    | some lastD =>
      match monthlyDF.rows.getLast? with
      | none => Except.error ("IndexError: single positional indexer is out-of-bounds")
      | some lastM =>
        match weeklyDF.rows.getLast? with
        | none => Except.error ("IndexError: single positional indexer is out-of-bounds")
        | some lastW =>
          let targetFuture := now + 31 * 24
          let tfDay := (targetFuture.fdiv 24) * 24
          let predHourLimit := min targetFuture (lastH.date + 150 * 24)
          let predDayLimit := min tfDay (lastD.date + 180 * 24)
          let predWeekLimit := min tfDay (lastW.date + 32 * 7 * 24)
          let predMonthLimit := min (monthStart targetFuture) (addMonths lastM.date 18)
          let hourlyRes :=
            if lastH.date < predHourLimit then
              loopGo ⟨hb.model, hb.features, hourlyDF.cols, Freq.H, hourLabel, (· + 1),
                predHourLimit, lastH.date, 100⟩ 3600
                ⟨hourlySorted, [], [], lastH.date + 1⟩
            else Except.ok ⟨hourlySorted, [], [], lastH.date + 1⟩
          match hourlyRes with
          | Except.error e => Except.error e
          | Except.ok hs =>
            let dailyRes :=
              if lastD.date < predDayLimit then
                loopGo ⟨db.model, db.features, dailyDF.cols, Freq.D, dayLabel, (· + 24),
                  predDayLimit, lastD.date, 30⟩ 180
                  ⟨dailyDF.rows, [], [], lastD.date + 24⟩
              else Except.ok ⟨dailyDF.rows, [], [], lastD.date + 24⟩
            match dailyRes with
            | Except.error e => Except.error e
            | Except.ok ds =>
              let weeklyRes :=
                if lastW.date < predWeekLimit then
                  loopGo ⟨wb.model, wb.features, weeklyDF.cols, Freq.W, weekLabel,
                    (· + 7 * 24), predWeekLimit, lastD.date, 1⟩ 32
                    ⟨weeklyDF.rows, [], [], lastW.date + 7 * 24⟩
                else Except.ok ⟨weeklyDF.rows, [], [], lastW.date + 7 * 24⟩
              match weeklyRes with
              | Except.error e => Except.error e
              | Except.ok ws =>
                let monthStartNow := monthStart now
                let mStart := if lastM.date = monthStartNow then lastM.date
                  else addMonths lastM.date 1
                let monthlyRes :=
                  if lastM.date < predMonthLimit then
                    loopGo ⟨mb.model, mb.features, monthlyDF.cols, Freq.M, monthLabel,
                      (fun t => addMonths t 1), predMonthLimit, lastM.date, 1⟩ 12
                      ⟨monthlyDF.rows, [], [], mStart⟩
                  else Except.ok ⟨monthlyDF.rows, [], [], mStart⟩
                match monthlyRes with
                | Except.error e => Except.error e
                | Except.ok ms =>
                  let allPreds := hs.preds ++ ds.preds ++ ws.preds ++ ms.preds
                  if !allPreds.isEmpty then Except.ok (sortPredsByDate allPreds)
                  else
                    match predictNext hb.model hb.features ⟨hourlyDF.cols, hourlySorted⟩
                        Freq.H ("next_hour") none none with
                    | Except.error e => Except.error e
                    | Except.ok nh =>
                      match predictNext db.model db.features dailyDF Freq.D ("next_day")
                          none none with
                      | Except.error e => Except.error e
                      | Except.ok nd =>
                        match predictNext mb.model mb.features monthlyDF Freq.M
                            ("next_month") none none with
                        | Except.error e => Except.error e
                        | Except.ok nm =>
                          match predictNext wb.model wb.features weeklyDF Freq.W
                              ("next_week") none none with
                          | Except.error e => Except.error e
                          | Except.ok nw => Except.ok [nh, nd, nw, nm]

/- General lemmas about the embedding, used by the claim theorems below. -/

/-- An `Except` equality is decidable componentwise. -/
instance {e a : Type} [DecidableEq e] [DecidableEq a] : DecidableEq (Except e a) := fun x y =>
  match x, y with
  | Except.error u, Except.error v =>
    if h : u = v then isTrue (by rw [h]) else isFalse (by intro hc; cases hc; exact h rfl)
  | Except.ok u, Except.ok v =>
    if h : u = v then isTrue (by rw [h]) else isFalse (by intro hc; cases hc; exact h rfl)
  | Except.error _, Except.ok _ => isFalse (by intro hc; cases hc)
  | Except.ok _, Except.error _ => isFalse (by intro hc; cases hc)

theorem getCells_set_self (c : String) (v : Val) (cs : List (String × Val)) :
    getCells c (setCells c v cs) = some v := by
  induction cs with
  | nil => simp [getCells, setCells]
  | cons p rest ih =>
    by_cases h : p.1 = c
    · simp [getCells, setCells, h]
    · simp [getCells, setCells, h, ih]

theorem getCells_set_ne (c c' : String) (v : Val) (cs : List (String × Val)) (h : c' ≠ c) :
    getCells c (setCells c' v cs) = getCells c cs := by
  induction cs with
  | nil =>
    simp only [setCells, getCells]
    rw [if_neg h]
  | cons p rest ih =>
    obtain ⟨pc, pv⟩ := p
    by_cases hp : pc = c'
    · subst hp
      simp only [setCells, if_pos rfl, getCells]
      rw [if_neg h, if_neg h]
    · simp only [setCells, if_neg hp, getCells]
      by_cases hc : pc = c
      · rw [if_pos hc, if_pos hc]
      · rw [if_neg hc, if_neg hc, ih]

theorem Row.find_set_self (r : Row) (c : String) (v : Val) : (r.set c v).find c = some v :=
  getCells_set_self c v r.cells

theorem Row.find_set_ne (r : Row) (c c' : String) (v : Val) (h : c' ≠ c) :
    (r.set c' v).find c = r.find c :=
  getCells_set_ne c c' v r.cells h

theorem Row.get_set_self (r : Row) (c : String) (v : Val) : (r.set c v).get c = v := by
  rw [Row.get, Row.find_set_self]
  rfl

theorem Row.hasCol_iff_find (r : Row) (c : String) :
    r.hasCol c = true ↔ ∃ v, r.find c = some v := by
  rw [Row.hasCol, Option.isSome_iff_exists]

theorem Row.hasCol_false_iff_find (r : Row) (c : String) :
    r.hasCol c = false ↔ r.find c = none := by
  rw [Row.hasCol]
  cases r.find c <;> simp

theorem Row.hasCol_set_self (r : Row) (c : String) (v : Val) : (r.set c v).hasCol c = true := by
  rw [Row.hasCol_iff_find]
  exact ⟨v, r.find_set_self c v⟩

theorem Row.hasCol_set_mono (r : Row) (c c' : String) (v : Val) (h : r.hasCol c = true) :
    (r.set c' v).hasCol c = true := by
  by_cases hc : c' = c
  · subst hc; exact r.hasCol_set_self c' v
  · rw [Row.hasCol_iff_find] at h ⊢
    rw [r.find_set_ne c c' v hc]
    exact h

theorem Row.date_set (r : Row) (c : String) (v : Val) : (r.set c v).date = r.date := rfl

/-- Invariant preservation along a left fold. -/
theorem foldl_preserve {α β : Type} (P : β → Prop) (f : β → α → β) :
    ∀ (l : List α) (b : β), (∀ b' a, a ∈ l → P b' → P (f b' a)) → P b → P (l.foldl f b)
  | [], _, _, hb => hb
  | x :: xs, b, hstep, hb =>
    foldl_preserve P f xs (f b x) (fun b' a ha hp => hstep b' a (List.mem_cons_of_mem x ha) hp)
      (hstep b x (List.mem_cons_self x xs) hb)

theorem mem_insertByDate (x r : Row) (l : List Row) :
    r ∈ insertByDate x l ↔ r = x ∨ r ∈ l := by
  induction l with
  | nil => simp [insertByDate]
  | cons y ys ih =>
    rw [insertByDate]
    by_cases h : y.date < x.date
    · rw [if_pos h, List.mem_cons, ih, List.mem_cons]
      tauto
    · rw [if_neg h, List.mem_cons, List.mem_cons]

theorem mem_sortByDate (r : Row) (l : List Row) : r ∈ sortByDate l ↔ r ∈ l := by
  induction l with
  | nil => simp [sortByDate]
  | cons y ys ih =>
    rw [sortByDate, List.foldr_cons, mem_insertByDate]
    rw [sortByDate] at ih
    rw [ih, List.mem_cons]

theorem cutoffRows_subset (freq : Freq) (rows : List Row) (r : Row)
    (h : r ∈ cutoffRows freq rows) : r ∈ rows := by
  rw [cutoffRows] at h
  split at h
  · exact h
  · split at h
    · exact (List.mem_filter.mp h).1
    · exact h

theorem histRows_subset (dfR : List Row) (mh : Option Int) (r : Row)
    (h : r ∈ histRows dfR mh) : r ∈ dfR := by
  cases mh with
  | none => simpa [histRows] using h
  | some m =>
    have h' : r ∈ dfR.filter (fun r => decide (r.date ≤ m)) := by simpa [histRows] using h
    exact (List.mem_filter.mp h').1

theorem mem_histRows_le (dfR : List Row) (m : Int) (r : Row)
    (h : r ∈ histRows dfR (some m)) : r.date ≤ m := by
  have h' : r ∈ dfR.filter (fun r => decide (r.date ≤ m)) := by simpa [histRows] using h
  exact of_decide_eq_true (List.mem_filter.mp h').2

/-- The last sorted row survives the 730-day cutoff, so the prepared frame of
a nonempty history is nonempty. -/
theorem cutoffRows_ne_nil (freq : Freq) (rows : List Row) (h : rows ≠ []) :
    cutoffRows freq rows ≠ [] := by
  have hl : rows.getLast? = some (rows.getLast h) := List.getLast?_eq_getLast_of_ne_nil h
  set lastRow := rows.getLast h with hlr
  have hmem : lastRow ∈ rows := List.getLast_mem h
  rw [cutoffRows, hl]
  dsimp only
  by_cases hf : (freq.isH || freq.isD) = true
  · rw [if_pos hf]
    have hin : lastRow ∈ rows.filter (fun r => lastRow.date - 730 * 24 ≤ r.date) := by
      rw [List.mem_filter]
      refine ⟨hmem, ?_⟩
      simp only [decide_eq_true_eq]
      omega
    intro hnil
    rw [hnil] at hin
    cases hin
  · rw [if_neg hf]
    exact h

theorem contains_eq_false_of_not_mem (l : List String) (c : String) (h : c ∉ l) :
    l.contains c = false := by simpa using h

theorem mem_of_contains_eq_true (l : List String) (c : String) (h : l.contains c = true) :
    c ∈ l := by simpa using h

/-- `applyLag` writes only the lag column itself. -/
theorem applyLag_find_ne (freq : Freq) (cols : List String) (dfR : List Row) (nd : Int)
    (row : Row) (lagCol c : String) (h : lagCol ≠ c) :
    (applyLag freq cols dfR nd row lagCol).find c = row.find c := by
  rw [applyLag]
  repeat' split
  all_goals first
    | rfl
    | exact row.find_set_ne c lagCol _ h

/-- The lag loop leaves every non-lag column untouched. -/
theorem lagStage_find (features cols : List String) (dfR : List Row) (freq : Freq) (nd : Int)
    (row : Row) (c : String) (hc : hasLagIn c = false) :
    (lagStage features cols dfR freq nd row).find c = row.find c := by
  rw [lagStage]
  refine foldl_preserve (fun r' => r'.find c = row.find c) _ _ row ?_ rfl
  intro b a ha hb
  have hlag : hasLagIn a = true := (List.mem_filter.mp ha).2
  have hne : a ≠ c := by
    intro he
    rw [he, hc] at hlag
    cases hlag
  rw [applyLag_find_ne freq cols dfR nd b a c hne, hb]

/-- The similar-row copy either leaves a non-critical column alone or copies
the analog's (non-NaN) cell for it. -/
theorem copyStage_find (features cols : List String) (sRows : List Row) (row : Row) (c : String)
    (hcrit : c ∉ criticalFeatures) :
    (copyStage features cols sRows row).find c = row.find c ∨
      ∃ sra v, sRows.getLast? = some sra ∧ sra.get c = some v ∧
        (copyStage features cols sRows row).find c = some (some v) := by
  rw [copyStage]
  cases hs : sRows.getLast? with
  | none => exact Or.inl rfl
  | some sra =>
    have h1 : (criticalFeatures.foldl (fun acc col =>
        if features.contains col && cols.contains col then
          match sra.get col with
          | some v => if v ≠ 0 then acc.set col (some v) else acc
          | none => acc
        else acc) row).find c = row.find c := by
      refine foldl_preserve (fun r' => r'.find c = row.find c) _ _ row ?_ rfl
      intro b a ha hb
      have hne : a ≠ c := fun he => hcrit (he ▸ ha)
      split
      · split
        · split
          · rw [Row.find_set_ne _ _ _ _ hne, hb]
          · exact hb
        · exact hb
      · exact hb
    have hstep : ∀ (b : Row) (a : String), a ∈ features →
        (b.find c = row.find c ∨ ∃ v, sra.get c = some v ∧ b.find c = some (some v)) →
        ((if !hasLagIn a && !criticalFeatures.contains a && cols.contains a then
            match sra.get a with
            | some v => b.set a (some v)
            | none => b
          else b).find c = row.find c ∨
          ∃ v, sra.get c = some v ∧
            (if !hasLagIn a && !criticalFeatures.contains a && cols.contains a then
              match sra.get a with
              | some v => b.set a (some v)
              | none => b
            else b).find c = some (some v)) := by
      intro b a ha hb
      by_cases hac : a = c
      · subst hac
        split
        · cases hv : sra.get a with
          | none =>
            rcases hb with hb | ⟨w, hw, hf⟩
            · exact Or.inl hb
            · rw [hv] at hw
              cases hw
          | some v => exact Or.inr ⟨v, rfl, Row.find_set_self b a (some v)⟩
        · exact hb
      · split
        · cases hv : sra.get a with
          | none => exact hb
          | some v =>
            rcases hb with hb | ⟨w, hw, hf⟩
            · exact Or.inl ((Row.find_set_ne b c a (some v) hac).trans hb)
            · exact Or.inr ⟨w, hw, (Row.find_set_ne b c a (some v) hac).trans hf⟩
        · exact hb
    have h2 := foldl_preserve (fun r' : Row => r'.find c = row.find c ∨
        ∃ v, sra.get c = some v ∧ r'.find c = some (some v))
      (fun acc col =>
        if !hasLagIn col && !criticalFeatures.contains col && cols.contains col then
          match sra.get col with
          | some v => acc.set col (some v)
          | none => acc
        else acc) features
      (criticalFeatures.foldl (fun acc col =>
        if features.contains col && cols.contains col then
          match sra.get col with
          | some v => if v ≠ 0 then acc.set col (some v) else acc
          | none => acc
        else acc) row) hstep (Or.inl h1)
    rcases h2 with h2 | ⟨v, hv, hf⟩
    · exact Or.inl h2
    · exact Or.inr ⟨sra, v, rfl, hv, hf⟩

/-- The generic NaN fill never touches a cell that is present and non-NaN. -/
theorem fillStage_find_of_some (features cols : List String) (dfR : List Row) (freq : Freq)
    (row : Row) (c : String) (v : ℚ) (h : row.find c = some (some v)) :
    (fillStage features cols dfR freq row).find c = some (some v) := by
  rw [fillStage]
  refine foldl_preserve (fun r' => r'.find c = some (some v)) _ _ row ?_ h
  intro b a ha hb
  by_cases hac : a = c
  · subst hac
    split
    · exact hb
    · split
      · exact hb
      · rename_i hget
        rw [Row.get, hb] at hget
        cases hget
  · split
    · exact hb
    · split
      · exact hb
      · split
        · rw [Row.find_set_ne b c a _ hac]
          exact hb
        · exact hb

/-- The generic NaN fill never creates a column. -/
theorem fillStage_find_of_none (features cols : List String) (dfR : List Row) (freq : Freq)
    (row : Row) (c : String) (h : row.find c = none) :
    (fillStage features cols dfR freq row).find c = none := by
  rw [fillStage]
  refine foldl_preserve (fun r' => r'.find c = none) _ _ row ?_ h
  intro b a ha hb
  by_cases hac : a = c
  · subst hac
    split
    · exact hb
    · rename_i hcol
      have : b.hasCol a = false := (Row.hasCol_false_iff_find b a).mpr hb
      rw [this] at hcol
      simp at hcol
  · split
    · exact hb
    · split
      · exact hb
      · split
        · rw [Row.find_set_ne b c a _ hac]
          exact hb
        · exact hb

/-- The final critical-feature ensure pass writes only critical columns. -/
theorem critEnsureStage_find (features cols : List String) (dfR : List Row) (freq : Freq)
    (row : Row) (c : String) (hcrit : c ∉ criticalFeatures) :
    (critEnsureStage features cols dfR freq row).find c = row.find c := by
  rw [critEnsureStage]
  refine foldl_preserve (fun r' => r'.find c = row.find c) _ _ row ?_ rfl
  intro b a ha hb
  have hne : a ≠ c := fun he => hcrit (he ▸ ha)
  rw [critEnsureStep]
  repeat' split
  all_goals first
    | exact hb
    | (rw [Row.find_set_ne b c a _ hne]; exact hb)

/-- The final critical-feature guard writes only critical columns. -/
theorem critGuardStage_find (cols : List String) (dfR : List Row) (freq : Freq)
    (row : Row) (c : String) (hcrit : c ∉ criticalFeatures) :
    (critGuardStage cols dfR freq row).find c = row.find c := by
  rw [critGuardStage]
  refine foldl_preserve (fun r' => r'.find c = row.find c) _ _ row ?_ rfl
  intro b a ha hb
  have hne : a ≠ c := fun he => hcrit (he ▸ ha)
  rw [critGuardStep]
  repeat' split
  all_goals first
    | exact hb
    | (rw [Row.find_set_ne b c a _ hne]; exact hb)

/-- The hour update writes only the hour column. -/
theorem hourUpdate_find_ne (cols : List String) (dfR sRows : List Row) (freq : Freq)
    (nd : Int) (row0 : Row) (c : String) (hc : c ≠ "hour") :
    (hourUpdate cols dfR sRows freq nd row0).find c = row0.find c := by
  rw [hourUpdate]
  have hne : ("hour" : String) ≠ c := fun h => hc h.symm
  repeat' split
  all_goals first
    | rfl
    | (rw [Row.find_set_ne row0 c _ _ hne])

theorem dowUpdate_find_ne (nd : Int) (row : Row) (c : String) (hc : c ≠ "dayofweek") :
    (dowUpdate nd row).find c = row.find c := by
  rw [dowUpdate]
  have hne : ("dayofweek" : String) ≠ c := fun h => hc h.symm
  split
  · rw [Row.find_set_ne row c _ _ hne]
  · rfl

theorem monthUpdate_find_ne (nd : Int) (row : Row) (c : String) (hc : c ≠ "month") :
    (monthUpdate nd row).find c = row.find c := by
  rw [monthUpdate]
  have hne : ("month" : String) ≠ c := fun h => hc h.symm
  split
  · rw [Row.find_set_ne row c _ _ hne]
  · rfl

/-- After the month update, the month cell is the target's month or absent. -/
theorem monthUpdate_find (nd : Int) (row : Row) :
    (monthUpdate nd row).find ("month") = some (some ((tmonth nd : Int) : ℚ)) ∨
      (monthUpdate nd row).find ("month") = none := by
  rw [monthUpdate]
  by_cases h : row.hasCol ("month") = true
  · rw [if_pos h]
    exact Or.inl (Row.find_set_self row _ _)
  · rw [if_neg h]
    exact Or.inr ((Row.hasCol_false_iff_find row _).mp (Bool.not_eq_true _ ▸ Bool.of_not_eq_true h))

theorem dowUpdate_find (nd : Int) (row : Row) :
    (dowUpdate nd row).find ("dayofweek") = some (some ((tdow nd : Int) : ℚ)) ∨
      (dowUpdate nd row).find ("dayofweek") = none := by
  rw [dowUpdate]
  by_cases h : row.hasCol ("dayofweek") = true
  · rw [if_pos h]
    exact Or.inl (Row.find_set_self row _ _)
  · rw [if_neg h]
    exact Or.inr ((Row.hasCol_false_iff_find row _).mp (Bool.not_eq_true _ ▸ Bool.of_not_eq_true h))

/-- For the hourly frequency, the hour update writes the target's hour when
the column exists. -/
theorem hourUpdate_find_H (cols : List String) (dfR sRows : List Row) (nd : Int) (row0 : Row) :
    (hourUpdate cols dfR sRows Freq.H nd row0).find ("hour") =
        some (some ((thour nd : Int) : ℚ)) ∨
      (hourUpdate cols dfR sRows Freq.H nd row0).find ("hour") = none := by
  rw [hourUpdate]
  by_cases h : row0.hasCol ("hour") = true
  · rw [if_pos h]
    exact Or.inl (Row.find_set_self row0 _ _)
  · rw [if_neg h]
    exact Or.inr ((Row.hasCol_false_iff_find row0 _).mp (Bool.not_eq_true _ ▸ Bool.of_not_eq_true h))

theorem similarOf_subset (freq : Freq) (histR : List Row) (nd : Int) (r : Row)
    (h : r ∈ similarOf freq histR nd) : r ∈ histR := by
  rw [similarOf] at h
  split at h
  · exact (List.mem_filter.mp h).1
  · split at h
    · exact (List.mem_filter.mp h).1
    · exact (List.mem_filter.mp h).1

/-- Every similar row matches the target's calendar month. -/
theorem similarOf_month (freq : Freq) (histR : List Row) (nd : Int) (r : Row)
    (h : r ∈ similarOf freq histR nd) : tmonth r.date = tmonth nd := by
  rw [similarOf] at h
  split at h
  · exact eq_of_beq (List.mem_filter.mp h).2
  · split at h
    · have hp := (List.mem_filter.mp h).2
      rw [Bool.and_eq_true, Bool.and_eq_true] at hp
      exact eq_of_beq hp.1.1
    · have hp := (List.mem_filter.mp h).2
      rw [Bool.and_eq_true] at hp
      exact eq_of_beq hp.1

/-- For the non-monthly frequencies, every similar row matches the target's
day of week. -/
theorem similarOf_dow (freq : Freq) (histR : List Row) (nd : Int) (r : Row)
    (hm : freq ≠ Freq.M) (h : r ∈ similarOf freq histR nd) : tdow r.date = tdow nd := by
  rw [similarOf] at h
  split at h
  · rename_i hM
    cases freq <;> simp [Freq.isM] at hM
    exact absurd rfl hm
  · split at h
    · have hp := (List.mem_filter.mp h).2
      rw [Bool.and_eq_true, Bool.and_eq_true] at hp
      exact eq_of_beq hp.1.2
    · have hp := (List.mem_filter.mp h).2
      rw [Bool.and_eq_true] at hp
      exact eq_of_beq hp.2

/-- For the hourly frequency, every similar row matches the target's hour. -/
theorem similarOf_hour (histR : List Row) (nd : Int) (r : Row)
    (h : r ∈ similarOf Freq.H histR nd) : thour r.date = thour nd := by
  rw [similarOf] at h
  have h' : r ∈ histR.filter (fun r =>
      tmonth r.date == tmonth nd && tdow r.date == tdow nd && thour r.date == thour nd) := h
  have hp := (List.mem_filter.mp h').2
  rw [Bool.and_eq_true] at hp
  exact eq_of_beq hp.2

theorem mem_setX (X : List (String × Val)) (c : String) (v : Val) (e : String × Val)
    (he : e ∈ setX X c v) : (e.1 = c ∧ e.2 = v) ∨ (e ∈ X ∧ e.1 ≠ c) := by
  rw [setX] at he
  obtain ⟨p, hp, hpe⟩ := List.mem_map.mp he
  by_cases hc : p.1 = c
  · rw [if_pos hc] at hpe
    left
    rw [← hpe]
    exact ⟨hc, rfl⟩
  · rw [if_neg hc] at hpe
    right
    rw [← hpe]
    exact ⟨hp, hc⟩

/-- The post-projection CAISO pass returns the frame unchanged or with only
the `CAISO Total` column reassigned. -/
theorem caisoPass_cases (features cols : List String) (dfR : List Row)
    (X : List (String × Val)) :
    caisoPass features cols dfR X = X ∨
      ∃ v, caisoPass features cols dfR X = setX X ("CAISO Total") v := by
  rw [caisoPass]
  repeat' split
  all_goals first
    | exact Or.inl rfl
    | exact Or.inr ⟨_, rfl⟩

/-- The CAISO pass is the identity when the projected CAISO value is a
nonzero number. -/
theorem caisoPass_of_nonzero (features cols : List String) (dfR : List Row)
    (X : List (String × Val)) (q : ℚ) (hq : getCells ("CAISO Total") X = some (some q))
    (h0 : q ≠ 0) : caisoPass features cols dfR X = X := by
  rw [caisoPass]
  split
  · rw [hq]
    dsimp only [Option.getD]
    rw [show (q == 0) = false from beq_eq_false_iff_ne.mpr h0]
    rfl
  · rfl

theorem getCells_map (features : List String) (f : String → Val) (c : String)
    (h : c ∈ features) :
    getCells c (features.map (fun c' => (c', f c'))) = some (f c) := by
  induction features with
  | nil => cases h
  | cons x xs ih =>
    rw [List.map_cons, getCells]
    by_cases hx : x = c
    · subst hx
      rw [if_pos rfl]
    · rw [if_neg hx]
      exact ih ((List.mem_cons.mp h).resolve_left (fun he => hx he.symm))

theorem mem_map_proj (features : List String) (f : String → Val) (e : String × Val)
    (he : e ∈ features.map (fun c => (c, f c))) : e.1 ∈ features ∧ e.2 = f e.1 := by
  obtain ⟨c, hc, rfl⟩ := List.mem_map.mp he
  exact ⟨hc, rfl⟩

theorem mem_nonZeroVals (rows : List Row) (c : String) (q : ℚ)
    (h : q ∈ nonZeroVals rows c) : 0 < q :=
  of_decide_eq_true (List.mem_filter.mp h).2

theorem lastN_subset {α : Type} (xs : List α) (n : Nat) : ∀ a ∈ lastN xs n, a ∈ xs :=
  fun _ ha => List.drop_subset _ xs ha

theorem lastN_ne_nil {α : Type} (xs : List α) (n : Nat) (hx : xs ≠ []) (hn : n ≠ 0) :
    lastN xs n ≠ [] := by
  rw [lastN]
  intro hcontra
  have hlen := congrArg List.length hcontra
  rw [List.length_drop] at hlen
  have hpos : 0 < xs.length := List.length_pos.mpr hx
  simp at hlen
  omega

/-- The mean of a nonempty list of positive rationals is positive. -/
theorem meanQ_pos (xs : List ℚ) (hne : xs ≠ []) (hpos : ∀ q ∈ xs, 0 < q) :
    ∃ m, meanQ xs = some m ∧ 0 < m := by
  rw [meanQ]
  rw [if_neg (by simpa [List.isEmpty_iff] using hne)]
  refine ⟨_, rfl, ?_⟩
  rw [qdivNat_eq, qsum_eq]
  apply div_pos (List.sum_pos xs hpos hne)
  exact_mod_cast List.length_pos.mpr hne

/- Concrete frames, models and loop set-ups used by the claim theorems.
Dates are real timestamps: hour 96 is 1970-01-05 00:00, a Monday. -/

/-- A single hourly history row at 1970-01-05 00:00 with cost 2. -/
def histRowA : Row := ⟨96, [("hour", some 0), ("Estimated_Hourly_Cost_USD", some 2)]⟩

def hourCols : List String := ["date", "hour", "Estimated_Hourly_Cost_USD"]

/-- A model that raises exactly when the synthesized hour is 5 — i.e. on the
fifth call of a loop that starts at hour 1. -/
def boomModel : List (String × Val) → Except String ℚ := fun X =>
  match getCells ("hour") X with
  | some (some q) => if q = 5 then Except.error ("boom") else Except.ok 1
  | _ => Except.ok 1

/-- The hourly loop of `run_inference` asking for 30 iterations over
`histRowA` with `boomModel`. -/
def boomParams : LoopParams :=
  ⟨boomModel, ["hour"], hourCols, Freq.H, hourLabel, (· + 1), 96 + 30, 96, 100⟩

def boomInit : LoopState := ⟨[histRowA], [], [], 97⟩

/-- A model that always raises. -/
def failModel : List (String × Val) → Except String ℚ := fun _ => Except.error ("boom")

def failParams : LoopParams :=
  ⟨failModel, ["hour"], hourCols, Freq.H, hourLabel, (· + 1), 96 + 30, 96, 100⟩

/-- A model that always predicts 1. -/
def oneModel : List (String × Val) → Except String ℚ := fun _ => Except.ok 1

def oneParams : LoopParams :=
  ⟨oneModel, ["hour"], hourCols, Freq.H, hourLabel, (· + 1), 96 + 30, 96, 100⟩

/-- The row the first hourly iteration buffers: the last frame row with the
date and target overwritten. -/
def oneSynthRow : Row := ⟨97, [("hour", some 0), ("Estimated_Hourly_Cost_USD", some 1)]⟩

def oneState1 : LoopState :=
  ⟨[histRowA], [oneSynthRow], [⟨TARGET_COL, 1, "hour_1970-01-05 01:00", 97⟩], 98⟩

/-- A weekly frame row at 1970-01-05 (a Monday week start). -/
def weekRow0 : Row := ⟨96, [("c", some 4), ("Estimated_Hourly_Cost_USD", some 2)]⟩

def weekCols : List String := ["date", "c", "Estimated_Hourly_Cost_USD"]

/-- The weekly loop set-up: weekly concatenates synthesized rows
immediately (`flushAt = 1`). -/
def weekParams : LoopParams :=
  ⟨oneModel, ["c"], weekCols, Freq.W, weekLabel, (· + 7 * 24), 96 + 100 * 24, 96, 1⟩

def weekInit : LoopState := ⟨[weekRow0], [], [], 96 + 7 * 24⟩

def weekSynthRow : Row := ⟨264, [("c", some 4), ("Estimated_Hourly_Cost_USD", some 1)]⟩

def weekState1 : LoopState :=
  ⟨[weekRow0, weekSynthRow], [], [⟨TARGET_COL, 1, "week_1970-01-12", 264⟩], 96 + 14 * 24⟩

/-- Hourly history with a calendar analog: `c3RowA` (Monday 1970-01-05 00:00,
feature `c = 7`) matches the target 1970-01-12 00:00; `c3RowB` (Sunday
1970-01-11 23:00, `c = 100`) is the most recent row. -/
def c3RowA : Row := ⟨96, [("c", some 7), ("Estimated_Hourly_Cost_USD", some 1)]⟩

def c3RowB : Row := ⟨263, [("c", some 100), ("Estimated_Hourly_Cost_USD", some 3)]⟩

def c3DF : DF := ⟨["date", "c", "Estimated_Hourly_Cost_USD"], [c3RowA, c3RowB]⟩

/-- A model that always predicts 5. -/
def fiveModel : List (String × Val) → Except String ℚ := fun _ => Except.ok 5

def c3Params : LoopParams :=
  ⟨fiveModel, ["c"], c3DF.cols, Freq.H, hourLabel, (· + 1), 400, 263, 100⟩

def c3Init : LoopState := ⟨[c3RowA, c3RowB], [], [], 264⟩

/-- The row that iteration buffers: a copy of `c3RowB` (`c = 100`), not the
synthesized vector (`c = 7`). -/
def c3NewRow : Row := ⟨264, [("c", some 100), ("Estimated_Hourly_Cost_USD", some 5)]⟩

def c3State1 : LoopState :=
  ⟨[c3RowA, c3RowB], [c3NewRow], [⟨TARGET_COL, 5, "hour_1970-01-12 00:00", 264⟩], 265⟩

/-- A model returning -0.02 for every vector. -/
def negModel : List (String × Val) → Except String ℚ := fun _ => Except.ok (mkQ (-1) 50)

/-- A daily frame whose one row (Monday 1970-01-05) has the aggregated
mean-hour cell 10. -/
def c5Row : Row := ⟨96, [("hour", some 10), ("Estimated_Hourly_Cost_USD", some 1)]⟩

def c5DF : DF := ⟨["date", "hour", "Estimated_Hourly_Cost_USD"], [c5Row]⟩

/-- A monthly frame (2024-01 and 2024-02) carrying only the lag columns of
`daily_mean_cost`, not the base column itself. -/
def c6RowA : Row :=
  ⟨daysFromCivil 2024 1 1 * 24, [("daily_mean_cost_lag_1", some 3), ("daily_mean_cost_lag_7", some 9)]⟩

def c6RowB : Row :=
  ⟨daysFromCivil 2024 2 1 * 24, [("daily_mean_cost_lag_1", some 3), ("daily_mean_cost_lag_7", some 5)]⟩

def c6Cols : List String := ["date", "daily_mean_cost_lag_1", "daily_mean_cost_lag_7"]

/-- The target month 2024-03. -/
def c6Target : Int := daysFromCivil 2024 3 1 * 24

def c6Seed : Row := ⟨c6Target, c6RowB.cells⟩

/-- A monthly frame that does carry the base column `daily_mean_cost`. -/
def c6wRow : Row :=
  ⟨daysFromCivil 2024 1 1 * 24, [("daily_mean_cost", some 11), ("daily_mean_cost_lag_1", some 3)]⟩

def c6wCols : List String :=
  ["date", "daily_mean_cost", "daily_mean_cost_lag_1", "daily_mean_cost_lag_7"]

def c6wSeed : Row := ⟨c6Target, c6wRow.cells⟩

/-- 31 hourly rows with `f_lag_1` running 1..31: the mean of the last 30 is
16.5 while the mean of the last 24 is 19.5. -/
def c7Rows : List Row := (List.range 31).map (fun (i : Nat) =>
  ⟨1000 + (i : Int), [("f_lag_1", some ((Nat.succ i : Nat) : ℚ))]⟩)

def c7Cols : List String := ["date", "f_lag_1"]

def c7Seed : Row := ⟨0, [("f_lag_1", some 1)]⟩

/-- An hourly frame whose only strictly positive `CAISO Total` value sits 731
days before the last row: the 730-day cutoff removes it. -/
def c8RowOld : Row := ⟨0, [("CAISO Total", some 5), ("Estimated_Hourly_Cost_USD", some 1)]⟩

def c8RowNew : Row := ⟨17544, [("CAISO Total", some 0), ("Estimated_Hourly_Cost_USD", some 1)]⟩

def c8DF : DF := ⟨["date", "CAISO Total", "Estimated_Hourly_Cost_USD"], [c8RowOld, c8RowNew]⟩

/-- An hourly frame whose `CAISO Total` is 4 at the penultimate row and 0 at
the last row: the critical-feature passes re-resolve the zero from the
trailing mean 2. -/
def c8wRowA : Row := ⟨96, [("CAISO Total", some 4), ("Estimated_Hourly_Cost_USD", some 1)]⟩

def c8wRowB : Row := ⟨97, [("CAISO Total", some 0), ("Estimated_Hourly_Cost_USD", some 1)]⟩

def c8wDF : DF := ⟨["date", "CAISO Total", "Estimated_Hourly_Cost_USD"], [c8wRowA, c8wRowB]⟩

/-- An hourly frame whose single row (1970-01-05 00:00, a Monday) carries
calendar-consistent `month`, `dayofweek` and `hour` cells. -/
def c5wRow : Row := ⟨96, [("month", some 1), ("dayofweek", some 0), ("hour", some 0),
  ("Estimated_Hourly_Cost_USD", some 2)]⟩

def c5wDF : DF := ⟨["date", "month", "dayofweek", "hour", "Estimated_Hourly_Cost_USD"], [c5wRow]⟩

/-- A bundle predicting 1 for everything. -/
def oneBundle : Bundle := ⟨oneModel, ["c"]⟩

/-- A one-row frame for the non-hourly granularities of the `C9` scenario. -/
def c9DF : DF :=
  ⟨["date", "c", "Estimated_Hourly_Cost_USD"], [⟨96, [("c", some 1), ("Estimated_Hourly_Cost_USD", some 1)]⟩]⟩

/-- An hourly frame with an empty row list. -/
def c9EmptyDF : DF := ⟨["date", "c", "Estimated_Hourly_Cost_USD"], []⟩

/-- Two hourly frames agreeing on the rows of the last 730 days; the first
additionally holds a row 20096 hours (≈ 837 days) older than the last row. -/
def c10RowOld : Row := ⟨-20000, [("c", some 50), ("Estimated_Hourly_Cost_USD", some 9)]⟩

def c10RowNew : Row := ⟨96, [("c", some 1), ("Estimated_Hourly_Cost_USD", some 1)]⟩

def c10DF1 : DF := ⟨["date", "c", "Estimated_Hourly_Cost_USD"], [c10RowOld, c10RowNew]⟩

def c10DF2 : DF := ⟨["date", "c", "Estimated_Hourly_Cost_USD"], [c10RowNew]⟩

/- Claim theorems. -/

/-- C4: every emitted Prediction Record has `prediction >= 0`: the record's
prediction is exactly 0 when the raw model output is negative and is the raw
output otherwise (lines 533-537). -/
theorem C4_nonneg_clamp : ∀ (model : List (String × Val) → Except String ℚ)
    (features : List String) (df0 : DF) (freq : Freq) (lbl : String)
    (td mh : Option Int) (rec : PredRecord),
    predictNext model features df0 freq lbl td mh = Except.ok rec →
    0 ≤ rec.prediction ∧
      ∃ nd X p, synthesizeX features df0 freq td mh = Except.ok (nd, X) ∧
        model X = Except.ok p ∧ rec.prediction = (if p < 0 then 0 else p) := by
  intro model features df0 freq lbl td mh rec h
  rw [predictNext] at h
  cases hX : synthesizeX features df0 freq td mh with
  | error e =>
    rw [hX] at h
    cases h
  | ok v =>
    obtain ⟨nd, X⟩ := v
    rw [hX] at h
    dsimp only at h
    cases hm : model X with
    | error e =>
      rw [hm] at h
      cases h
    | ok p =>
      rw [hm] at h
      cases h
      refine ⟨?_, nd, X, p, rfl, hm, rfl⟩
      dsimp only
      split
      · exact le_refl 0
      · rename_i hp
        exact le_of_not_lt hp

/-- C4 witness: a raw output of -0.02 on a concrete hourly frame is emitted
as a record with prediction exactly 0. -/
theorem C4_witness :
    0 ≤ (⟨TARGET_COL, 0, "lbl", 264⟩ : PredRecord).prediction ∧
      ∃ nd X p, synthesizeX ["c"] c3DF Freq.H (some 264) (some 263) = Except.ok (nd, X) ∧
        negModel X = Except.ok p ∧
        (⟨TARGET_COL, 0, "lbl", 264⟩ : PredRecord).prediction = (if p < 0 then 0 else p) :=
  C4_nonneg_clamp negModel ["c"] c3DF Freq.H ("lbl") (some 264) (some 263)
    ⟨TARGET_COL, 0, "lbl", 264⟩ (by decide)

/-- C10: for the hourly and daily frequencies, `_predict_next` is a function
of the 730-day window — two frames with the same columns whose sorted rows
agree inside the cutoff window produce identical results — and the monthly
cutoff keeps all rows. -/
theorem C10_cutoff_determinism :
    (∀ (model : List (String × Val) → Except String ℚ) (features : List String)
      (df1 df2 : DF) (freq : Freq) (lbl : String) (td mh : Option Int),
      (freq = Freq.H ∨ freq = Freq.D) →
      (sortByDate df1.rows).isEmpty = false →
      (sortByDate df2.rows).isEmpty = false →
      df1.cols = df2.cols →
      cutoffRows freq (sortByDate df1.rows) = cutoffRows freq (sortByDate df2.rows) →
      predictNext model features df1 freq lbl td mh =
        predictNext model features df2 freq lbl td mh) ∧
    (∀ rows : List Row, cutoffRows Freq.M rows = rows) := by
  constructor
  · intro model features df1 df2 freq lbl td mh hfreq h1 h2 hcols hcut
    simp only [predictNext, synthesizeX, h1, h2, hcols, hcut]
  · intro rows
    rw [cutoffRows]
    cases rows.getLast? <;> rfl

/-- C10 witness: adding a row 837 days before the last hourly row leaves the
single-step prediction unchanged. -/
theorem C10_witness :
    predictNext oneModel ["c"] c10DF1 Freq.H ("x") (some 100) (some 96) =
      predictNext oneModel ["c"] c10DF2 Freq.H ("x") (some 100) (some 96) :=
  C10_cutoff_determinism.1 oneModel ["c"] c10DF1 c10DF2 Freq.H ("x") (some 100) (some 96)
    (Or.inl rfl) (by decide) (by decide) rfl (by decide)

/-- C2 counterexample: with a model that raises on the 5th of 30 requested
hourly iterations, the loop does not return the 4 records already emitted —
the exception propagates and the whole loop evaluates to the error. -/
theorem C2_counterexample :
    loopGo boomParams 3600 boomInit = Except.error ("boom") ∧
      ¬ ∃ s : LoopState, loopGo boomParams 3600 boomInit = Except.ok s ∧ s.preds.length = 4 := by
  have h : loopGo boomParams 3600 boomInit = Except.error ("boom") := by decide
  refine ⟨h, ?_⟩
  rintro ⟨s, hs, -⟩
  rw [h] at hs
  cases hs

/-- C2 amended: an exception from feature synthesis or the model call inside
a horizon-loop iteration propagates out of the loop at once — the loop
returns the error and the records accumulated in the state are discarded. -/
theorem C2_amended : ∀ (P : LoopParams) (fuel : Nat) (s : LoopState) (e : String),
    s.curr ≤ P.limit → loopStep P s = Except.error e →
    loopGo P (fuel + 1) s = Except.error e := by
  intro P fuel s e hc hstep
  rw [loopGo, if_pos hc, hstep]

/-- C2 witness: the propagation theorem applied to an always-raising model. -/
theorem C2_witness : loopGo failParams 30 ⟨[histRowA], [], [], 97⟩ = Except.error ("boom") :=
  C2_amended failParams 29 ⟨[histRowA], [], [], 97⟩ ("boom") (by decide) (by decide)

/-- C9 counterexample: with an empty hourly history and nonempty daily,
weekly and monthly histories, `run_inference` raises an `IndexError` while
reading the last hourly timestamp — the empty granularity is not skipped,
and the other granularities emit nothing. -/
theorem C9_counterexample :
    runInferenceCore oneBundle oneBundle oneBundle oneBundle c9EmptyDF c9DF c9DF c9DF 480000 =
      Except.error ("IndexError: single positional indexer is out-of-bounds") ∧
      c9DF.rows.length = 1 := by
  constructor
  · rfl
  · rfl

/-- C9 amended: an empty history for the hourly granularity makes the whole
`run_inference` raise before any granularity produces a record, whatever the
other frames and models are. -/
theorem C9_amended : ∀ (hb db wb mb : Bundle) (cols : List String)
    (dailyDF weeklyDF monthlyDF : DF) (now : Int),
    runInferenceCore hb db wb mb ⟨cols, []⟩ dailyDF weeklyDF monthlyDF now =
      Except.error ("IndexError: single positional indexer is out-of-bounds") := by
  intro hb db wb mb cols dailyDF weeklyDF monthlyDF now
  rfl

/-- C1 counterexample: synthesized rows are not visible to the next
iteration's lookups as the claim states.  Hourly (flush threshold 100): the
row buffered by iteration 1 is absent from the frame `loopStep` hands to
iteration 2's `_predict_next`, so neither the lag nor the analog lookup can
see it.  Weekly (immediate concat): the synthesized row is in the frame, yet
the calendar-analog pool `histRows` still excludes it, because its date lies
after `max_hist_date`. -/
theorem C1_counterexample :
    (loopStep oneParams boomInit = Except.ok oneState1 ∧
      oneState1.buffer = [oneSynthRow] ∧ oneSynthRow ∉ oneState1.rows) ∧
    (loopStep weekParams weekInit = Except.ok weekState1 ∧
      weekSynthRow ∈ weekState1.rows ∧
      weekSynthRow ∉ histRows (cutoffRows Freq.W (sortByDate weekState1.rows))
        (some weekParams.maxHist)) := by
  constructor
  · exact ⟨by decide, by decide, by decide⟩
  · exact ⟨by decide, by decide, by decide⟩

/-- C1 amended: the calendar-analog lookup never sees a row dated after
`max_hist_date` — in particular no synthesized row of the current run — and
a loop that concatenates immediately (`flushAt = 1`, the weekly and monthly
loops) does make each synthesized row visible to the next iteration's lag
lookup, which reads the flushed frame. -/
theorem C1_amended :
    (∀ (dfR : List Row) (mh : Int) (r : Row), mh < r.date → r ∉ histRows dfR (some mh)) ∧
    (∀ (P : LoopParams) (s s' : LoopState), P.flushAt = 1 →
      loopStep P s = Except.ok s' →
      s'.buffer = [] ∧ ∃ rnew : Row, rnew.date = s.curr ∧
        s'.rows = s.rows ++ s.buffer ++ [rnew]) := by
  constructor
  · intro dfR mh r hlt hmem
    have := mem_histRows_le dfR mh r hmem
    omega
  · intro P s s' hf h
    rw [loopStep] at h
    cases hp : predictNext P.model P.features ⟨P.cols, s.rows⟩ P.freq (P.mkLabel s.curr)
        (some s.curr) (some P.maxHist) with
    | error e =>
      rw [hp] at h
      cases h
    | ok pred =>
      rw [hp] at h
      dsimp only at h
      cases hl : s.rows.getLast? with
      | none =>
        rw [hl] at h
        dsimp only at h
        rw [if_pos (by rw [hf]; simp)] at h
        cases h
        exact ⟨rfl, ⟨s.curr, [(TARGET_COL, some pred.prediction)]⟩, rfl,
          (List.append_assoc s.rows s.buffer _).symm⟩
      | some lr =>
        rw [hl] at h
        dsimp only at h
        rw [if_pos (by rw [hf]; simp)] at h
        cases h
        exact ⟨rfl, ⟨s.curr, setCells TARGET_COL (some pred.prediction) lr.cells⟩, rfl,
          (List.append_assoc s.rows s.buffer _).symm⟩

/-- C1 witness: the amended statement applied to the concrete weekly step. -/
theorem C1_witness :
    ((⟨200, [("c", some 1)]⟩ : Row) ∉ histRows [weekRow0] (some 96)) ∧
      weekState1.buffer = [] :=
  ⟨C1_amended.1 [weekRow0] 96 ⟨200, [("c", some 1)]⟩ (by decide),
   (C1_amended.2 weekParams weekInit weekState1 rfl (by decide)).1⟩

/-- C3 counterexample: the synthesized vector for 1970-01-12 00:00 carries
the analog value `c = 7`, but the row the loop appends to working history is
a copy of the frame's last row with `c = 100` — only the date and target are
overwritten — so later lag lookups read the stale feature value. -/
theorem C3_counterexample :
    synthesizeX ["c"] c3DF Freq.H (some 264) (some 263) = Except.ok (264, [("c", some 7)]) ∧
    loopStep c3Params c3Init = Except.ok c3State1 ∧
    c3State1.buffer = [c3NewRow] ∧
    c3NewRow.get ("c") = some 100 ∧ ((100 : ℚ) ≠ 7) := by
  refine ⟨by decide, by decide, by decide, by decide, by decide⟩

/-- C3 amended: each horizon-loop iteration appends a copy of the flushed
frame's last row in which only the date and the target column are
overwritten; the synthesized feature vector is not stored. -/
theorem C3_amended : ∀ (P : LoopParams) (s s' : LoopState) (lr : Row),
    s.rows.getLast? = some lr → loopStep P s = Except.ok s' →
    ∃ pred : PredRecord,
      predictNext P.model P.features ⟨P.cols, s.rows⟩ P.freq (P.mkLabel s.curr)
        (some s.curr) (some P.maxHist) = Except.ok pred ∧
      s'.preds = s.preds ++ [pred] ∧
      s'.rows ++ s'.buffer =
        s.rows ++ s.buffer ++ [⟨s.curr, setCells TARGET_COL (some pred.prediction) lr.cells⟩] := by
  intro P s s' lr hl h
  rw [loopStep] at h
  cases hp : predictNext P.model P.features ⟨P.cols, s.rows⟩ P.freq (P.mkLabel s.curr)
      (some s.curr) (some P.maxHist) with
  | error e =>
    rw [hp] at h
    cases h
  | ok pred =>
    rw [hp] at h
    dsimp only at h
    rw [hl] at h
    dsimp only at h
    refine ⟨pred, rfl, ?_⟩
    by_cases hflush : P.flushAt ≤ (s.buffer ++
        [(⟨s.curr, setCells TARGET_COL (some pred.prediction) lr.cells⟩ : Row)]).length
    · rw [if_pos hflush] at h
      cases h
      exact ⟨rfl, by rw [List.append_nil, List.append_assoc]⟩
    · rw [if_neg hflush] at h
      cases h
      exact ⟨rfl, by rw [List.append_assoc]⟩

/-- C3 witness: the amended characterization applied to the concrete hourly
step of the C3 scenario. -/
theorem C3_witness :
    ∃ pred : PredRecord,
      predictNext c3Params.model c3Params.features ⟨c3Params.cols, c3Init.rows⟩ c3Params.freq
        (c3Params.mkLabel c3Init.curr) (some c3Init.curr) (some c3Params.maxHist) =
          Except.ok pred ∧
      c3State1.preds = c3Init.preds ++ [pred] ∧
      c3State1.rows ++ c3State1.buffer = c3Init.rows ++ c3Init.buffer ++
        [⟨c3Init.curr, setCells TARGET_COL (some pred.prediction) c3RowB.cells⟩] :=
  C3_amended c3Params c3Init c3State1 c3RowB (by decide) (by decide)

/-- C6 counterexample: on a monthly working history that carries the lag
columns of `daily_mean_cost` but not the base column, the 1-period lag
resolves through the lag-column read (value 3) while the 7-period lag has no
such fallback and resolves through the trailing average of its own column
(value 7) — different values, different paths. -/
theorem C6_counterexample :
    (applyLag Freq.M c6Cols [c6RowA, c6RowB] c6Target c6Seed
        ("daily_mean_cost_lag_7")).get ("daily_mean_cost_lag_7") = some 7 ∧
    (applyLag Freq.M c6Cols [c6RowA, c6RowB] c6Target c6Seed
        ("daily_mean_cost_lag_1")).get ("daily_mean_cost_lag_1") = some 3 ∧
    ((7 : ℚ) ≠ 3) := by
  refine ⟨by decide, by decide, by decide⟩

/-- C6 amended: the monthly lag collapsing does hold when the base column
`daily_mean_cost` exists in the frame, the `_lag_1` column is among the
columns, and the base value at the row one month back is present: then every
longer lag of `daily_mean_cost` resolves to the same value as the 1-period
lag, namely that base cell. -/
theorem C6_amended : ∀ (cols : List String) (dfR : List Row) (nd : Int) (row lr : Row) (q : ℚ),
    cols.contains ("daily_mean_cost") = true →
    cols.contains ("daily_mean_cost_lag_1") = true →
    (dfR.filter (fun r => r.date ≤ addMonths nd (-1))).getLast? = some lr →
    lr.get ("daily_mean_cost") = some q →
    (applyLag Freq.M cols dfR nd row ("daily_mean_cost_lag_7")).get ("daily_mean_cost_lag_7")
        = some q ∧
    (applyLag Freq.M cols dfR nd row ("daily_mean_cost_lag_1")).get ("daily_mean_cost_lag_1")
        = some q := by
  intro cols dfR nd row lr q hbase hlag1 hlast hval
  have e7a : (pySplit ("daily_mean_cost_lag_7") ("_lag_"))[1]? = some ("7") := by decide
  have e7b : pyToInt? ("7") = some 7 := by decide
  have e7c : pyReplace ("daily_mean_cost_lag_7") ("_lag_" ++ toString (7 : Int)) ("")
      = "daily_mean_cost" := by decide
  have e7d : pyReplace ("daily_mean_cost" ++ "_lag_1") ("_lag_1") ("") = "daily_mean_cost" := by
    decide
  have e1a : (pySplit ("daily_mean_cost_lag_1") ("_lag_"))[1]? = some ("1") := by decide
  have e1b : pyToInt? ("1") = some 1 := by decide
  have e1c : pyReplace ("daily_mean_cost_lag_1") ("_lag_" ++ toString (1 : Int)) ("")
      = "daily_mean_cost" := by decide
  have h7 : lagResolve Freq.M cols dfR nd ("daily_mean_cost_lag_7") = some q := by
    rw [lagResolve, e7a]
    dsimp only
    rw [e7b]
    dsimp only [Freq.isM]
    rw [if_pos rfl, if_neg (by decide : ¬(7 : Int) = 1), e7c, e7d, hbase]
    rw [show ("daily_mean_cost" ++ "_lag_1" : String) = "daily_mean_cost_lag_1" from by decide]
    rw [hlag1, if_pos rfl, hlast]
    dsimp only
    rw [if_pos rfl, hval]
  have h1 : lagResolve Freq.M cols dfR nd ("daily_mean_cost_lag_1") = some q := by
    rw [lagResolve, e1a]
    dsimp only
    rw [e1b]
    dsimp only [Freq.isM]
    rw [if_pos rfl, if_pos rfl, hlast]
    dsimp only
    rw [e1c, hbase, if_pos rfl, hval]
  constructor
  · rw [applyLag, h7]
    exact Row.get_set_self row _ _
  · rw [applyLag, h1]
    exact Row.get_set_self row _ _

/-- C6 witness: the collapsing equality on a concrete monthly frame that has
the base column. -/
theorem C6_witness :
    (applyLag Freq.M c6wCols [c6wRow] c6Target c6wSeed
        ("daily_mean_cost_lag_7")).get ("daily_mean_cost_lag_7") = some 11 ∧
    (applyLag Freq.M c6wCols [c6wRow] c6Target c6wSeed
        ("daily_mean_cost_lag_1")).get ("daily_mean_cost_lag_1") = some 11 :=
  C6_amended c6wCols [c6wRow] c6Target c6wSeed c6wRow 11 (by decide) (by decide)
    (by decide) (by decide)

set_option maxRecDepth 100000 in
/-- C7 counterexample: with 31 hourly rows whose `f_lag_1` runs 1..31 and a
target before all rows (so the true lag fails), the lag fallback resolves to
the mean of the last 30 values (16.5), not the mean of the last 24 (19.5)
that the hourly window of the claim prescribes. -/
theorem C7_counterexample :
    (applyLag Freq.H c7Cols c7Rows 0 c7Seed ("f_lag_1")).get ("f_lag_1") = some (mkQ 33 2) ∧
    meanLastN c7Rows ("f_lag_1") 24 = some (mkQ 39 2) ∧ mkQ 33 2 ≠ mkQ 39 2 := by
  refine ⟨by decide, by decide, by decide⟩

/-- C7 amended: the generic NaN-fill averager does use windows 24/30/12 for
hourly/daily/monthly and falls back to the all-time mean when fewer rows than
the window exist, but the lag-feature fallback uses a window of 30 for every
frequency. -/
theorem C7_amended :
    (genericFillWindow Freq.H = 24 ∧ genericFillWindow Freq.D = 30 ∧
      genericFillWindow Freq.M = 12) ∧
    (∀ (freq : Freq) (cols : List String) (dfR : List Row) (nd : Int) (row : Row)
      (lagCol : String), lagResolve freq cols dfR nd lagCol = none →
      cols.contains lagCol = true →
      applyLag freq cols dfR nd row lagCol = row.set lagCol (meanLastN dfR lagCol 30)) ∧
    (∀ (rows : List Row) (c : String) (n : Nat), rows.length ≤ n →
      meanLastN rows c n = meanAll rows c) := by
  refine ⟨⟨rfl, rfl, rfl⟩, ?_, ?_⟩
  · intro freq cols dfR nd row lagCol hres hc
    rw [applyLag, hres]
    dsimp only
    rw [hc, if_pos rfl]
  · intro rows c n h
    simp only [meanLastN, meanAll, lastN, colVals, List.length_map,
      Nat.sub_eq_zero_of_le h, List.drop_zero]

/-- C7 witness: the small-history clause and the 30-window lag fallback
applied to concrete frames. -/
theorem C7_witness :
    meanLastN [c7Seed] ("f_lag_1") 30 = meanAll [c7Seed] ("f_lag_1") ∧
    applyLag Freq.H c7Cols [] 5 c7Seed ("f_lag_1") =
      c7Seed.set ("f_lag_1") (meanLastN [] ("f_lag_1") 30) :=
  ⟨C7_amended.2.2 [c7Seed] ("f_lag_1") 30 (by decide),
   C7_amended.2.1 Freq.H c7Cols [] 5 c7Seed ("f_lag_1") (by decide) (by decide)⟩

theorem mem_of_getLast {α : Type} {l : List α} {a : α} (h : l.getLast? = some a) : a ∈ l := by
  cases hl : l with
  | nil =>
    rw [hl] at h
    cases h
  | cons x xs =>
    subst hl
    have hne : x :: xs ≠ [] := by simp
    rw [List.getLast?_eq_getLast_of_ne_nil hne] at h
    cases h
    exact List.getLast_mem hne

theorem Row.get_eq_some_iff (r : Row) (c : String) (v : ℚ) :
    r.get c = some v ↔ r.find c = some (some v) := by
  rw [Row.get]
  cases hf : r.find c with
  | none => simp
  | some w => cases w <;> simp

theorem Row.get_eq_none_iff (r : Row) (c : String) :
    r.get c = none ↔ (r.find c = none ∨ r.find c = some none) := by
  rw [Row.get]
  cases hf : r.find c with
  | none => simp
  | some w => cases w <;> simp

theorem Row.hasCol_set_ne (r : Row) (c c' : String) (v : Val) (h : c' ≠ c) :
    (r.set c' v).hasCol c = r.hasCol c := by
  rw [Row.hasCol, Row.hasCol, r.find_set_ne c c' v h]

/-- The generic NaN fill neither creates nor removes columns. -/
theorem fillStage_hasCol (features cols : List String) (dfR : List Row) (freq : Freq)
    (row : Row) (c : String) :
    (fillStage features cols dfR freq row).hasCol c = row.hasCol c := by
  rw [fillStage]
  refine foldl_preserve (fun r' => r'.hasCol c = row.hasCol c) _ _ row ?_ rfl
  intro b a ha hb
  by_cases hac : a = c
  · subst hac
    split
    · exact hb
    · rename_i hcol
      have hcol' : b.hasCol a = true := by
        cases hba : b.hasCol a
        · rw [hba] at hcol
          simp at hcol
        · rfl
      split
      · exact hb
      · split
        · rw [Row.hasCol_set_self]
          rw [← hb, hcol']
        · exact hb
  · split
    · exact hb
    · split
      · exact hb
      · split
        · rw [Row.hasCol_set_ne b c a _ hac]
          exact hb
        · exact hb

/-- A successful `synthesizeX` exposes the prepared frame, the resolved date
and the successful core synthesis. -/
theorem synthesizeX_ok_elim (features : List String) (df0 : DF) (freq : Freq)
    (td mh : Option Int) (nd : Int) (X : List (String × Val))
    (h : synthesizeX features df0 freq td mh = Except.ok (nd, X)) :
    ∃ lastRow, (cutoffRows freq (sortByDate df0.rows)).getLast? = some lastRow ∧
      (∀ t : Int, td = some t → nd = t) ∧
      sortByDate df0.rows ≠ [] ∧
      synthCore features df0.cols (cutoffRows freq (sortByDate df0.rows)) freq lastRow nd mh
        = Except.ok X := by
  rw [synthesizeX] at h
  by_cases hE : (sortByDate df0.rows).isEmpty = true
  · rw [if_pos hE] at h
    cases h
  · rw [if_neg hE] at h
    have hnil : sortByDate df0.rows ≠ [] := by
      intro hn
      rw [List.isEmpty_iff.mpr hn] at hE
      exact hE rfl
    cases hL : (cutoffRows freq (sortByDate df0.rows)).getLast? with
    | none =>
      rw [hL] at h
      cases h
    | some lastRow =>
      rw [hL] at h
      dsimp only at h
      cases hSC : synthCore features df0.cols (cutoffRows freq (sortByDate df0.rows)) freq
          lastRow (resolveNextDate freq lastRow td) mh with
      | error e =>
        rw [hSC] at h
        cases h
      | ok X' =>
        rw [hSC] at h
        cases h
        refine ⟨lastRow, rfl, ?_, hnil, hSC⟩
        intro t ht
        rw [ht]
        rfl

/-- A successful `synthCore` means every feature ended up present on the
synthesized row, and the result is the CAISO pass over the projection. -/
theorem synthCore_ok_elim (features cols : List String) (dfR : List Row) (freq : Freq)
    (lastRow : Row) (nd : Int) (mh : Option Int) (X : List (String × Val))
    (h : synthCore features cols dfR freq lastRow nd mh = Except.ok X) :
    (∀ c ∈ features, (synthRow features cols dfR freq lastRow nd mh).hasCol c = true) ∧
    X = caisoPass features cols dfR
      (features.map (fun c => (c, (synthRow features cols dfR freq lastRow nd mh).get c))) := by
  rw [synthCore] at h
  by_cases hall : features.all
      (fun c => (synthRow features cols dfR freq lastRow nd mh).hasCol c) = true
  · rw [if_pos hall] at h
    cases h
    exact ⟨fun c hc => List.all_eq_true.mp hall c hc, rfl⟩
  · rw [if_neg hall] at h
    cases h

/-- One guard step leaves every other column alone. -/
theorem critGuardStep_find_ne (cols : List String) (dfR : List Row) (freq : Freq)
    (acc : Row) (col c : String) (h : col ≠ c) :
    (critGuardStep cols dfR freq acc col).find c = acc.find c := by
  rw [critGuardStep]
  repeat' split
  all_goals first
    | rfl
    | (rw [Row.find_set_ne acc c col _ h])

/-- One guard step neither creates nor removes columns. -/
theorem critGuardStep_hasCol (cols : List String) (dfR : List Row) (freq : Freq)
    (acc : Row) (col c : String) :
    (critGuardStep cols dfR freq acc col).hasCol c = acc.hasCol c := by
  rw [critGuardStep]
  by_cases hhc : acc.hasCol col = true
  · rw [if_pos hhc]
    by_cases hcc : col = c
    · subst hcc
      repeat' split
      all_goals first
        | rfl
        | (rw [Row.hasCol_set_self, hhc])
    · repeat' split
      all_goals first
        | rfl
        | (rw [Row.hasCol_set_ne acc c col _ hcc])
  · rw [if_neg hhc]

/-- When the column exists on the row, is listed in the frame columns, and the
frame holds at least one strictly positive value for it, one guard step on it
ends with a present, non-zero value: a non-zero value is kept, and a NaN/zero
value is replaced by the strictly-positive trailing mean, which is positive. -/
theorem critGuardStep_establish (cols : List String) (dfR : List Row) (freq : Freq)
    (acc : Row) (col : String) (hhc : acc.hasCol col = true)
    (hccols : cols.contains col = true) (hnz : nonZeroVals dfR col ≠ []) :
    ∃ q : ℚ, (critGuardStep cols dfR freq acc col).find col = some (some q) ∧ q ≠ 0 := by
  have hdfne : dfR ≠ [] := by
    intro hd
    rw [hd] at hnz
    exact hnz rfl
  have hlen : 0 < (nonZeroVals dfR col).length := List.length_pos.mpr hnz
  have hWpos : 0 < min (if freq.isH then min 168 dfR.length else min 30 dfR.length)
      (nonZeroVals dfR col).length := by
    have h1 : 0 < dfR.length := List.length_pos.mpr hdfne
    by_cases hH : freq.isH = true
    · rw [if_pos hH]
      omega
    · rw [if_neg hH]
      omega
  have hlast : lastN (nonZeroVals dfR col)
      (min (if freq.isH then min 168 dfR.length else min 30 dfR.length)
        (nonZeroVals dfR col).length) ≠ [] :=
    lastN_ne_nil _ _ hnz (Nat.pos_iff_ne_zero.mp hWpos)
  have hpos : ∀ q ∈ lastN (nonZeroVals dfR col)
      (min (if freq.isH then min 168 dfR.length else min 30 dfR.length)
        (nonZeroVals dfR col).length), 0 < q :=
    fun q hq => mem_nonZeroVals dfR col q (lastN_subset _ _ q hq)
  obtain ⟨m, hm, hmpos⟩ := meanQ_pos _ hlast hpos
  rw [critGuardStep, if_pos hhc]
  split
  · rw [hm]
    dsimp only
    rw [if_pos (ne_of_gt hmpos)]
    exact ⟨m, Row.find_set_self acc col (some m), ne_of_gt hmpos⟩
  · rename_i hcond
    cases hg : acc.get col with
    | none =>
      exfalso
      apply hcond
      rw [hg]
    | some v =>
      refine ⟨v, (Row.get_eq_some_iff acc col v).mp hg, ?_⟩
      intro hv0
      apply hcond
      rw [hg, hv0]
      decide

/-- The guard pass neither creates nor removes columns. -/
theorem critGuardStage_hasCol (cols : List String) (dfR : List Row) (freq : Freq)
    (row : Row) (c : String) :
    (critGuardStage cols dfR freq row).hasCol c = row.hasCol c := by
  rw [critGuardStage]
  refine foldl_preserve (fun r' => r'.hasCol c = row.hasCol c) _ _ row ?_ rfl
  intro b a ha hb
  rw [critGuardStep_hasCol, hb]

/-- The whole guard pass establishes a present non-zero value for a critical
column that exists on the row, given a strictly positive value in the frame. -/
theorem critGuardStage_establish (cols : List String) (dfR : List Row) (freq : Freq)
    (row : Row) (col : String) (hcol : col ∈ criticalFeatures)
    (hhc : row.hasCol col = true) (hccols : cols.contains col = true)
    (hnz : nonZeroVals dfR col ≠ []) :
    ∃ q : ℚ, (critGuardStage cols dfR freq row).find col = some (some q) ∧ q ≠ 0 := by
  rw [critGuardStage, criticalFeatures, List.foldl_cons, List.foldl_cons, List.foldl_nil]
  rcases List.mem_cons.mp hcol with h1 | hrest
  · subst h1
    obtain ⟨q, hq, hq0⟩ := critGuardStep_establish cols dfR freq row _ hhc hccols hnz
    refine ⟨q, ?_, hq0⟩
    rw [critGuardStep_find_ne cols dfR freq _ _ _ (by decide), hq]
  · have h2 : col = "Monthly_Price_Cents_per_kWh" := by
      rcases List.mem_cons.mp hrest with h2 | h3
      · exact h2
      · cases h3
    subst h2
    have hhc2 : (critGuardStep cols dfR freq row ("CAISO Total")).hasCol
        ("Monthly_Price_Cents_per_kWh") = true := by
      rw [critGuardStep_hasCol]
      exact hhc
    exact critGuardStep_establish cols dfR freq _ _ hhc2 hccols hnz

/-- On the synthesized row, a critical feature that is present ends non-zero
whenever the prepared frame holds a strictly positive value for it, because
the guard pass runs last. -/
theorem synthRow_crit_establish (features cols : List String) (dfR : List Row) (freq : Freq)
    (lastRow : Row) (nd : Int) (mh : Option Int) (col : String)
    (hcol : col ∈ criticalFeatures)
    (hhc : (synthRow features cols dfR freq lastRow nd mh).hasCol col = true)
    (hccols : cols.contains col = true) (hnz : nonZeroVals dfR col ≠ []) :
    ∃ q : ℚ, (synthRow features cols dfR freq lastRow nd mh).find col = some (some q) ∧
      q ≠ 0 := by
  rw [synthRow] at hhc ⊢
  rw [critGuardStage_hasCol] at hhc
  exact critGuardStage_establish cols dfR freq _ col hcol hhc hccols hnz

/-- Through the lag loop, the similar-row copy, both fills and both critical
passes, a non-lag non-critical column keeps the value `tv` (or stays absent),
provided it is `tv` or NaN at the start and every analog carries `tv` in it. -/
theorem pipeline_temporal (features cols : List String) (dfR : List Row) (freq : Freq)
    (sRows : List Row) (nd : Int) (row : Row) (c : String) (tv : ℚ)
    (hcrit : c ∉ criticalFeatures) (hlag : hasLagIn c = false)
    (hrow : row.find c = some (some tv) ∨ row.find c = none)
    (hsim : ∀ r ∈ sRows, ∀ q : ℚ, r.get c = some q → q = tv) :
    (critGuardStage cols dfR freq (fillStage features cols dfR freq
        (critEnsureStage features cols dfR freq (fillStage features cols dfR freq
          (copyStage features cols sRows
            (lagStage features cols dfR freq nd row)))))).find c = some (some tv) ∨
      (critGuardStage cols dfR freq (fillStage features cols dfR freq
        (critEnsureStage features cols dfR freq (fillStage features cols dfR freq
          (copyStage features cols sRows
            (lagStage features cols dfR freq nd row)))))).find c = none := by
  have h2 : (lagStage features cols dfR freq nd row).find c = some (some tv) ∨
      (lagStage features cols dfR freq nd row).find c = none := by
    rw [lagStage_find features cols dfR freq nd row c hlag]
    exact hrow
  have h3 : (copyStage features cols sRows (lagStage features cols dfR freq nd row)).find c
        = some (some tv) ∨
      (copyStage features cols sRows (lagStage features cols dfR freq nd row)).find c
        = none := by
    rcases copyStage_find features cols sRows (lagStage features cols dfR freq nd row) c hcrit
      with hc | ⟨sra, v, hsra, hv, hf⟩
    · rw [hc]
      exact h2
    · left
      rw [hf, hsim sra (mem_of_getLast hsra) v hv]
  have h4 : (fillStage features cols dfR freq (copyStage features cols sRows
        (lagStage features cols dfR freq nd row))).find c = some (some tv) ∨
      (fillStage features cols dfR freq (copyStage features cols sRows
        (lagStage features cols dfR freq nd row))).find c = none := by
    rcases h3 with h3 | h3
    · exact Or.inl (fillStage_find_of_some features cols dfR freq _ c tv h3)
    · exact Or.inr (fillStage_find_of_none features cols dfR freq _ c h3)
  have h5 : (critEnsureStage features cols dfR freq (fillStage features cols dfR freq
        (copyStage features cols sRows (lagStage features cols dfR freq nd row)))).find c
          = some (some tv) ∨
      (critEnsureStage features cols dfR freq (fillStage features cols dfR freq
        (copyStage features cols sRows (lagStage features cols dfR freq nd row)))).find c
          = none := by
    rw [critEnsureStage_find features cols dfR freq _ c hcrit]
    exact h4
  have h6 : (fillStage features cols dfR freq (critEnsureStage features cols dfR freq
        (fillStage features cols dfR freq (copyStage features cols sRows
          (lagStage features cols dfR freq nd row))))).find c = some (some tv) ∨
      (fillStage features cols dfR freq (critEnsureStage features cols dfR freq
        (fillStage features cols dfR freq (copyStage features cols sRows
          (lagStage features cols dfR freq nd row))))).find c = none := by
    rcases h5 with h5 | h5
    · exact Or.inl (fillStage_find_of_some features cols dfR freq _ c tv h5)
    · exact Or.inr (fillStage_find_of_none features cols dfR freq _ c h5)
  rw [critGuardStage_find cols dfR freq _ c hcrit]
  exact h6

/-- The synthesized row's value in a non-lag non-critical column is `tv` or
absent whenever the temporal update leaves it `tv` or absent and every analog
row carries `tv` in it. -/
theorem synthRow_temporal (features cols : List String) (dfR : List Row) (freq : Freq)
    (lastRow : Row) (nd : Int) (mh : Option Int) (c : String) (tv : ℚ)
    (hcrit : c ∉ criticalFeatures) (hlag : hasLagIn c = false)
    (htemp : (tempUpdate cols dfR (similarOf freq (histRows dfR mh) nd) freq nd
          (baseSeed dfR freq lastRow nd mh)).find c = some (some tv) ∨
        (tempUpdate cols dfR (similarOf freq (histRows dfR mh) nd) freq nd
          (baseSeed dfR freq lastRow nd mh)).find c = none)
    (hsim : ∀ r ∈ similarOf freq (histRows dfR mh) nd, ∀ q : ℚ, r.get c = some q → q = tv) :
    (synthRow features cols dfR freq lastRow nd mh).find c = some (some tv) ∨
      (synthRow features cols dfR freq lastRow nd mh).find c = none := by
  rw [synthRow]
  exact pipeline_temporal features cols dfR freq (similarOf freq (histRows dfR mh) nd) nd
    (tempUpdate cols dfR (similarOf freq (histRows dfR mh) nd) freq nd
      (baseSeed dfR freq lastRow nd mh)) c tv hcrit hlag htemp hsim

/-- The witness frame's cells are calendar-consistent with its date. -/
theorem c5w_consistent : ∀ r ∈ c5wDF.rows,
    (∀ q : ℚ, r.get ("month") = some q → q = ((tmonth r.date : Int) : ℚ)) ∧
    (∀ q : ℚ, r.get ("dayofweek") = some q → q = ((tdow r.date : Int) : ℚ)) ∧
    (∀ q : ℚ, r.get ("hour") = some q → q = ((thour r.date : Int) : ℚ)) := by
  intro r hr
  have hre : r = c5wRow := List.mem_singleton.mp hr
  subst hre
  refine ⟨?_, ?_, ?_⟩
  · intro q hq
    rw [show c5wRow.get ("month") = (some 1 : Val) from rfl] at hq
    rw [← Option.some.inj hq]
    decide
  · intro q hq
    rw [show c5wRow.get ("dayofweek") = (some 0 : Val) from rfl] at hq
    rw [← Option.some.inj hq]
    decide
  · intro q hq
    rw [show c5wRow.get ("hour") = (some 0 : Val) from rfl] at hq
    rw [← Option.some.inj hq]
    decide

/-- C5 counterexample: on the daily granularity the synthesized `hour` is the
analogs' average (10), not the target's actual hour (0) — the claim's "for
every granularity ... hour ... equals p's actual calendar value" fails. -/
theorem C5_counterexample :
    synthesizeX ["hour"] c5DF Freq.D (some 264) (some 96) =
      Except.ok (264, [("hour", some 10)]) ∧
    ((10 : ℚ) ≠ ((thour 264 : Int) : ℚ)) :=
  ⟨by decide, by decide⟩

/-- C5 amended: for the non-monthly granularities, on a frame whose temporal
cells are calendar-consistent, the synthesized `month` and `dayofweek` equal
the target's actual calendar values, and `hour` does too on the hourly
granularity only (lines 249-272 with the analog copy of lines 356-378). -/
theorem C5_amended (features : List String) (df0 : DF) (freq : Freq)
    (td : Int) (mh : Option Int) (nd : Int) (X : List (String × Val))
    (hM : freq.isM = false)
    (hcons : ∀ r ∈ df0.rows,
      (∀ q : ℚ, r.get ("month") = some q → q = ((tmonth r.date : Int) : ℚ)) ∧
      (∀ q : ℚ, r.get ("dayofweek") = some q → q = ((tdow r.date : Int) : ℚ)) ∧
      (∀ q : ℚ, r.get ("hour") = some q → q = ((thour r.date : Int) : ℚ)))
    (h : synthesizeX features df0 freq (some td) mh = Except.ok (nd, X)) :
    nd = td ∧
    (∀ e ∈ X, e.1 = "month" → e.2 = some ((tmonth td : Int) : ℚ)) ∧
    (∀ e ∈ X, e.1 = "dayofweek" → e.2 = some ((tdow td : Int) : ℚ)) ∧
    (freq.isH = true → ∀ e ∈ X, e.1 = "hour" → e.2 = some ((thour td : Int) : ℚ)) := by
  obtain ⟨lastRow, hL, hndtd, hnil, hSC⟩ :=
    synthesizeX_ok_elim features df0 freq (some td) mh nd X h
  have hnd : nd = td := hndtd td rfl
  subst hnd
  obtain ⟨hall, hXeq⟩ := synthCore_ok_elim features df0.cols
    (cutoffRows freq (sortByDate df0.rows)) freq lastRow nd mh X hSC
  subst hXeq
  have key : ∀ (c : String) (tv : ℚ), c ∉ criticalFeatures → hasLagIn c = false →
      ((tempUpdate df0.cols (cutoffRows freq (sortByDate df0.rows))
          (similarOf freq (histRows (cutoffRows freq (sortByDate df0.rows)) mh) nd) freq nd
          (baseSeed (cutoffRows freq (sortByDate df0.rows)) freq lastRow nd mh)).find c
            = some (some tv) ∨
        (tempUpdate df0.cols (cutoffRows freq (sortByDate df0.rows))
          (similarOf freq (histRows (cutoffRows freq (sortByDate df0.rows)) mh) nd) freq nd
          (baseSeed (cutoffRows freq (sortByDate df0.rows)) freq lastRow nd mh)).find c
            = none) →
      (∀ r ∈ similarOf freq (histRows (cutoffRows freq (sortByDate df0.rows)) mh) nd,
        ∀ q : ℚ, r.get c = some q → q = tv) →
      ∀ e ∈ caisoPass features df0.cols (cutoffRows freq (sortByDate df0.rows))
        (features.map (fun c' => (c', (synthRow features df0.cols
          (cutoffRows freq (sortByDate df0.rows)) freq lastRow nd mh).get c'))),
        e.1 = c → e.2 = some tv := by
    intro c tv hcrit hlag htemp hsim e he hec
    have hdisj := synthRow_temporal features df0.cols (cutoffRows freq (sortByDate df0.rows))
      freq lastRow nd mh c tv hcrit hlag htemp hsim
    have hcCA : c ≠ "CAISO Total" := by
      intro hca
      apply hcrit
      rw [hca]
      decide
    have hem : e ∈ features.map (fun c' => (c', (synthRow features df0.cols
        (cutoffRows freq (sortByDate df0.rows)) freq lastRow nd mh).get c')) := by
      rcases caisoPass_cases features df0.cols (cutoffRows freq (sortByDate df0.rows))
        (features.map (fun c' => (c', (synthRow features df0.cols
          (cutoffRows freq (sortByDate df0.rows)) freq lastRow nd mh).get c'))) with
          hc | ⟨v, hc⟩ <;> rw [hc] at he
      · exact he
      · rcases mem_setX _ _ _ e he with ⟨h1, h2⟩ | ⟨hmem, h2⟩
        · refine absurd ?_ hcCA
          rw [← hec]
          exact h1
        · exact hmem
    obtain ⟨h1, h2⟩ := mem_map_proj features _ e hem
    rw [hec] at h1 h2
    have hhc : (synthRow features df0.cols (cutoffRows freq (sortByDate df0.rows)) freq
        lastRow nd mh).hasCol c = true := hall c h1
    rcases hdisj with hfind | hfind
    · rw [h2]
      exact (Row.get_eq_some_iff _ c tv).mpr hfind
    · refine absurd hhc ?_
      rw [(Row.hasCol_false_iff_find _ c).mpr hfind]
      exact Bool.false_ne_true
  have hmemrows : ∀ r ∈ similarOf freq (histRows (cutoffRows freq (sortByDate df0.rows)) mh) nd,
      r ∈ df0.rows := by
    intro r hr
    have hr1 : r ∈ histRows (cutoffRows freq (sortByDate df0.rows)) mh :=
      similarOf_subset _ _ _ r hr
    have hr2 : r ∈ cutoffRows freq (sortByDate df0.rows) := histRows_subset _ _ r hr1
    exact (mem_sortByDate r _).mp (cutoffRows_subset freq _ r hr2)
  refine ⟨rfl, ?_, ?_, ?_⟩
  · refine key ("month") ((tmonth nd : Int) : ℚ) (by decide) (by decide) ?_ ?_
    · rw [tempUpdate]
      exact monthUpdate_find nd _
    · intro r hr q hq
      rw [(hcons r (hmemrows r hr)).1 q hq, similarOf_month freq _ nd r hr]
  · refine key ("dayofweek") ((tdow nd : Int) : ℚ) (by decide) (by decide) ?_ ?_
    · rw [tempUpdate, monthUpdate_find_ne nd _ ("dayofweek") (by decide)]
      exact dowUpdate_find nd _
    · intro r hr q hq
      have hMne : freq ≠ Freq.M := fun hfm => absurd (hfm ▸ hM) (by decide)
      rw [(hcons r (hmemrows r hr)).2.1 q hq, similarOf_dow freq _ nd r hMne hr]
  · intro hH
    have hfH : freq = Freq.H := by
      cases freq
      all_goals first
        | rfl
        | exact absurd hH (by decide)
    subst hfH
    refine key ("hour") ((thour nd : Int) : ℚ) (by decide) (by decide) ?_ ?_
    · rw [tempUpdate, monthUpdate_find_ne nd _ ("hour") (by decide),
        dowUpdate_find_ne nd _ ("hour") (by decide)]
      exact hourUpdate_find_H df0.cols _ _ nd _
    · intro r hr q hq
      rw [(hcons r (hmemrows r hr)).2.2 q hq, similarOf_hour _ nd r hr]

/-- C5 witness: on a consistent hourly frame, the synthesized `month`,
`dayofweek` and `hour` for the target 1970-01-12 00:00 are its actual
calendar values (month 1, Monday, hour 0). -/
theorem C5_witness :
    Freq.H.isM = false ∧
    synthesizeX ["month", "dayofweek", "hour"] c5wDF Freq.H (some 264) (some 96) =
      Except.ok (264, [("month", some 1), ("dayofweek", some 0), ("hour", some 0)]) ∧
    (264 : Int) = 264 ∧
    (∀ e ∈ [(("month" : String), (some 1 : Val)), ("dayofweek", some 0), ("hour", some 0)],
      e.1 = "month" → e.2 = some ((tmonth 264 : Int) : ℚ)) := by
  have hX : synthesizeX ["month", "dayofweek", "hour"] c5wDF Freq.H (some 264) (some 96) =
      Except.ok (264, [("month", some 1), ("dayofweek", some 0), ("hour", some 0)]) := by
    decide
  have hA := C5_amended ["month", "dayofweek", "hour"] c5wDF Freq.H 264 (some 96) 264
    [("month", some 1), ("dayofweek", some 0), ("hour", some 0)] (by decide) c5w_consistent hX
  exact ⟨by decide, hX, hA.1, hA.2.1⟩

/-- C8 counterexample: the working history holds the strictly positive
`CAISO Total` value 5, yet the value handed to the model is 0, because the
only positive value sits beyond the 730-day cutoff and every guard average
runs over the cut frame. -/
theorem C8_counterexample :
    c8RowOld ∈ c8DF.rows ∧ c8RowOld.get ("CAISO Total") = some 5 ∧ (0 : ℚ) < 5 ∧
    synthesizeX ["CAISO Total"] c8DF Freq.H (some 17545) (some 17544) =
      Except.ok (17545, [("CAISO Total", some 0)]) :=
  ⟨by decide, by decide, by decide, by decide⟩

/-- C8 amended: for a critical feature among the model's features and the
frame's columns, if the 730-day-cut prepared frame (not the full working
history) holds a strictly positive value for it, the value handed to
`model.predict` is present, non-NaN and non-zero (lines 461-521). -/
theorem C8_amended (features : List String) (df0 : DF) (freq : Freq)
    (td mh : Option Int) (nd : Int) (X : List (String × Val)) (col : String)
    (hcol : col ∈ criticalFeatures) (hcf : features.contains col = true)
    (hccols : df0.cols.contains col = true)
    (hnz : nonZeroVals (cutoffRows freq (sortByDate df0.rows)) col ≠ [])
    (h : synthesizeX features df0 freq td mh = Except.ok (nd, X)) :
    ∀ e ∈ X, e.1 = col → ∃ q : ℚ, e.2 = some q ∧ q ≠ 0 := by
  obtain ⟨lastRow, hL, hndtd, hnil, hSC⟩ := synthesizeX_ok_elim features df0 freq td mh nd X h
  obtain ⟨hall, hXeq⟩ := synthCore_ok_elim features df0.cols
    (cutoffRows freq (sortByDate df0.rows)) freq lastRow nd mh X hSC
  obtain ⟨q, hfind, hq0⟩ := synthRow_crit_establish features df0.cols
    (cutoffRows freq (sortByDate df0.rows)) freq lastRow nd mh col hcol
    (hall col (mem_of_contains_eq_true features col hcf)) hccols hnz
  have hget : (synthRow features df0.cols (cutoffRows freq (sortByDate df0.rows)) freq
      lastRow nd mh).get col = some q := (Row.get_eq_some_iff _ col q).mpr hfind
  intro e he hecol
  subst hXeq
  by_cases hCA : col = "CAISO Total"
  · subst hCA
    rw [caisoPass_of_nonzero features df0.cols (cutoffRows freq (sortByDate df0.rows)) _ q
      (by rw [getCells_map features _ _ (mem_of_contains_eq_true features _ hcf)]
          rw [hget])
      hq0] at he
    obtain ⟨h1, h2⟩ := mem_map_proj features _ e he
    refine ⟨q, ?_, hq0⟩
    rw [h2, hecol]
    exact hget
  · rcases caisoPass_cases features df0.cols (cutoffRows freq (sortByDate df0.rows))
      (features.map (fun c => (c, (synthRow features df0.cols
        (cutoffRows freq (sortByDate df0.rows)) freq lastRow nd mh).get c))) with
        hc | ⟨v, hc⟩ <;> rw [hc] at he
    · obtain ⟨h1, h2⟩ := mem_map_proj features _ e he
      refine ⟨q, ?_, hq0⟩
      rw [h2, hecol]
      exact hget
    · rcases mem_setX _ _ _ e he with ⟨h1, h2⟩ | ⟨hmem, h2⟩
      · refine absurd ?_ hCA
        rw [← hecol]
        exact h1
      · obtain ⟨h1, h2'⟩ := mem_map_proj features _ e hmem
        refine ⟨q, ?_, hq0⟩
        rw [h2', hecol]
        exact hget

/-- C8 witness: on a frame whose last `CAISO Total` is 0 but whose previous
row holds 4, the value handed to the model is the non-zero trailing mean 2. -/
theorem C8_witness :
    nonZeroVals (cutoffRows Freq.H (sortByDate c8wDF.rows)) ("CAISO Total") ≠ [] ∧
    synthesizeX ["CAISO Total"] c8wDF Freq.H (some 98) (some 97) =
      Except.ok (98, [("CAISO Total", some 2)]) ∧
    (∃ q : ℚ, (some 2 : Val) = some q ∧ q ≠ 0) := by
  have hnz : nonZeroVals (cutoffRows Freq.H (sortByDate c8wDF.rows)) ("CAISO Total") ≠ [] := by
    decide
  have hX : synthesizeX ["CAISO Total"] c8wDF Freq.H (some 98) (some 97) =
      Except.ok (98, [("CAISO Total", some 2)]) := by decide
  refine ⟨hnz, hX, ?_⟩
  exact C8_amended ["CAISO Total"] c8wDF Freq.H (some 98) (some 97) 98
    [("CAISO Total", some 2)] ("CAISO Total") (by decide) (by decide) (by decide) hnz hX
    (("CAISO Total"), some 2) (by decide) rfl
